import Mathlib

/-!
Verification of the minivtun-rs core against its specification.

The development shallowly embeds the Rust sources:
* the wire codec (src/msg/msg.rs, src/msg/ipdata.rs, src/msg/echo.rs) together
  with the cipher capability it consumes (src/cryptor/aes.rs wraps the external
  aes/block_modes crates, so the AES-CBC block primitive is embedded here as
  the FIPS-197 cipher the crates implement, and the repository's own
  ZeroPadding is embedded from src/cryptor/aes.rs);
* the server routing fabric (src/route.rs, src/server.rs);
* the client connection state machine (src/client.rs, src/state.rs);
* the reactor loop (src/poll.rs).

Machine integers are modelled as Fin/Nat with explicit bounds; time is an
explicit Nat parameter standing for Instant; randomness (sequence seeds) is an
explicit parameter.  Fallible Rust code returns Except; Rust panics are a
distinguished outcome where a claim depends on them.
-/

deriving instance DecidableEq for Except

namespace MiniVtun

/-! ### Bytes and GF(2^8) arithmetic (the field underlying AES, FIPS-197 §4) -/

abbrev Byte := Fin 256

/-- Byte-wise exclusive or. -/
def bxor (a b : Byte) : Byte :=
  ⟨a.val ^^^ b.val, Nat.xor_lt_two_pow (n := 8) a.isLt b.isLt⟩

instance : Std.Associative bxor :=
  ⟨fun a b c => by simp [bxor, Fin.ext_iff, Nat.xor_assoc]⟩

instance : Std.Commutative bxor :=
  ⟨fun a b => by simp [bxor, Fin.ext_iff, Nat.xor_comm]⟩

/-- Multiplication by x in GF(2^8) modulo x^8+x^4+x^3+x+1 (FIPS-197 xtime). -/
def xtime (b : Byte) : Byte :=
  if h : b.val < 128 then ⟨2 * b.val, by omega⟩
  else ⟨((2 * b.val) ^^^ 0x11b) % 256, Nat.mod_lt _ (by norm_num)⟩

/-- Fuel-indexed Russian-peasant multiplication step for gfMul. -/
def gfMulGo : Nat → Byte → Byte → Byte → Byte
  | 0, _, _, acc => acc
  | n + 1, x, y, acc =>
    gfMulGo n (xtime x) ⟨y.val / 2, by omega⟩
      (if y.val % 2 == 1 then bxor acc x else acc)

/-- The GF(2^8) product of two bytes. -/
def gfMul (a b : Byte) : Byte := gfMulGo 8 a b ⟨0, by norm_num⟩

def gfSquare (a : Byte) : Byte := gfMul a a

/-- a^254, the multiplicative inverse for nonzero a (and 0 at 0), FIPS-197 §5.1.1. -/
def gfInv (a : Byte) : Byte :=
  let x3 := gfMul (gfSquare a) a
  let x7 := gfMul (gfSquare x3) a
  let x15 := gfMul (gfSquare x7) a
  let x31 := gfMul (gfSquare x15) a
  let x63 := gfMul (gfSquare x31) a
  let x127 := gfMul (gfSquare x63) a
  gfSquare x127

/-- Rotate a byte left by k bits. -/
def rotl8 (b : Byte) (k : Nat) : Byte :=
  ⟨((b.val <<< k) ||| (b.val >>> (8 - k))) % 256, Nat.mod_lt _ (by norm_num)⟩

/-- The S-box affine transformation of FIPS-197 §5.1.1. -/
def affineFwd (b : Byte) : Byte :=
  bxor (bxor (bxor (bxor (bxor b (rotl8 b 1)) (rotl8 b 2)) (rotl8 b 3)) (rotl8 b 4))
    ⟨0x63, by norm_num⟩

/-- The AES S-box, defined mathematically: affine transform of the field inverse. -/
def sboxMath (b : Byte) : Byte := affineFwd (gfInv b)

/-- Inverse of the S-box affine transformation. -/
def affineInv (b : Byte) : Byte :=
  bxor (bxor (bxor (rotl8 b 1) (rotl8 b 3)) (rotl8 b 6)) ⟨0x05, by norm_num⟩

/-- The inverse AES S-box, defined mathematically. -/
def invSboxMath (b : Byte) : Byte := gfInv (affineInv b)

/-- The AES S-box as the FIPS-197 lookup table (fast to evaluate; proved to
    invert invSboxTab, and exercised by the appendix C cipher examples
    below). -/
def sboxTab : List Nat :=
 [
  99, 124, 119, 123, 242, 107, 111, 197, 48, 1, 103, 43, 254, 215, 171, 118,
  202, 130, 201, 125, 250, 89, 71, 240, 173, 212, 162, 175, 156, 164, 114, 192,
  183, 253, 147, 38, 54, 63, 247, 204, 52, 165, 229, 241, 113, 216, 49, 21,
  4, 199, 35, 195, 24, 150, 5, 154, 7, 18, 128, 226, 235, 39, 178, 117,
  9, 131, 44, 26, 27, 110, 90, 160, 82, 59, 214, 179, 41, 227, 47, 132,
  83, 209, 0, 237, 32, 252, 177, 91, 106, 203, 190, 57, 74, 76, 88, 207,
  208, 239, 170, 251, 67, 77, 51, 133, 69, 249, 2, 127, 80, 60, 159, 168,
  81, 163, 64, 143, 146, 157, 56, 245, 188, 182, 218, 33, 16, 255, 243, 210,
  205, 12, 19, 236, 95, 151, 68, 23, 196, 167, 126, 61, 100, 93, 25, 115,
  96, 129, 79, 220, 34, 42, 144, 136, 70, 238, 184, 20, 222, 94, 11, 219,
  224, 50, 58, 10, 73, 6, 36, 92, 194, 211, 172, 98, 145, 149, 228, 121,
  231, 200, 55, 109, 141, 213, 78, 169, 108, 86, 244, 234, 101, 122, 174, 8,
  186, 120, 37, 46, 28, 166, 180, 198, 232, 221, 116, 31, 75, 189, 139, 138,
  112, 62, 181, 102, 72, 3, 246, 14, 97, 53, 87, 185, 134, 193, 29, 158,
  225, 248, 152, 17, 105, 217, 142, 148, 155, 30, 135, 233, 206, 85, 40, 223,
  140, 161, 137, 13, 191, 230, 66, 104, 65, 153, 45, 15, 176, 84, 187, 22]

/-- The inverse AES S-box as the FIPS-197 lookup table. -/
def invSboxTab : List Nat :=
 [
  82, 9, 106, 213, 48, 54, 165, 56, 191, 64, 163, 158, 129, 243, 215, 251,
  124, 227, 57, 130, 155, 47, 255, 135, 52, 142, 67, 68, 196, 222, 233, 203,
  84, 123, 148, 50, 166, 194, 35, 61, 238, 76, 149, 11, 66, 250, 195, 78,
  8, 46, 161, 102, 40, 217, 36, 178, 118, 91, 162, 73, 109, 139, 209, 37,
  114, 248, 246, 100, 134, 104, 152, 22, 212, 164, 92, 204, 93, 101, 182, 146,
  108, 112, 72, 80, 253, 237, 185, 218, 94, 21, 70, 87, 167, 141, 157, 132,
  144, 216, 171, 0, 140, 188, 211, 10, 247, 228, 88, 5, 184, 179, 69, 6,
  208, 44, 30, 143, 202, 63, 15, 2, 193, 175, 189, 3, 1, 19, 138, 107,
  58, 145, 17, 65, 79, 103, 220, 234, 151, 242, 207, 206, 240, 180, 230, 115,
  150, 172, 116, 34, 231, 173, 53, 133, 226, 249, 55, 232, 28, 117, 223, 110,
  71, 241, 26, 113, 29, 41, 197, 137, 111, 183, 98, 14, 170, 24, 190, 27,
  252, 86, 62, 75, 198, 210, 121, 32, 154, 219, 192, 254, 120, 205, 90, 244,
  31, 221, 168, 51, 136, 7, 199, 49, 177, 18, 16, 89, 39, 128, 236, 95,
  96, 81, 127, 169, 25, 181, 74, 13, 45, 229, 122, 159, 147, 201, 156, 239,
  160, 224, 59, 77, 174, 42, 245, 176, 200, 235, 187, 60, 131, 83, 153, 97,
  23, 43, 4, 126, 186, 119, 214, 38, 225, 105, 20, 99, 85, 33, 12, 125]

/-- Table-driven S-box used by the executable cipher. -/
def sbox (b : Byte) : Byte :=
  ⟨(sboxTab.getD b.val 0) % 256, Nat.mod_lt _ (by norm_num)⟩

/-- Table-driven inverse S-box. -/
def invSbox (b : Byte) : Byte :=
  ⟨(invSboxTab.getD b.val 0) % 256, Nat.mod_lt _ (by norm_num)⟩

/-! ### The AES state and round transformations (FIPS-197 §5)

The 16 bytes of a block fill the state column-major: byte i is the state
entry at row i mod 4, column i / 4.  Field aN below is byte N in that order. -/

structure St where
  a0 : Byte
  a1 : Byte
  a2 : Byte
  a3 : Byte
  a4 : Byte
  a5 : Byte
  a6 : Byte
  a7 : Byte
  a8 : Byte
  a9 : Byte
  a10 : Byte
  a11 : Byte
  a12 : Byte
  a13 : Byte
  a14 : Byte
  a15 : Byte
  deriving DecidableEq

def subBytes (s : St) : St :=
  ⟨sbox s.a0, sbox s.a1, sbox s.a2, sbox s.a3, sbox s.a4, sbox s.a5, sbox s.a6, sbox s.a7,
   sbox s.a8, sbox s.a9, sbox s.a10, sbox s.a11, sbox s.a12, sbox s.a13, sbox s.a14, sbox s.a15⟩

def invSubBytes (s : St) : St :=
  ⟨invSbox s.a0, invSbox s.a1, invSbox s.a2, invSbox s.a3, invSbox s.a4, invSbox s.a5,
   invSbox s.a6, invSbox s.a7, invSbox s.a8, invSbox s.a9, invSbox s.a10, invSbox s.a11,
   invSbox s.a12, invSbox s.a13, invSbox s.a14, invSbox s.a15⟩

/-- Row r of the state is rotated left by r (FIPS-197 §5.1.2). -/
def shiftRows (s : St) : St :=
  ⟨s.a0, s.a5, s.a10, s.a15, s.a4, s.a9, s.a14, s.a3,
   s.a8, s.a13, s.a2, s.a7, s.a12, s.a1, s.a6, s.a11⟩

def invShiftRows (s : St) : St :=
  ⟨s.a0, s.a13, s.a10, s.a7, s.a4, s.a1, s.a14, s.a11,
   s.a8, s.a5, s.a2, s.a15, s.a12, s.a9, s.a6, s.a3⟩

def mul2 (x : Byte) : Byte := xtime x
def mul3 (x : Byte) : Byte := bxor (xtime x) x
def mul9 (x : Byte) : Byte := bxor (xtime (xtime (xtime x))) x
def mul11 (x : Byte) : Byte := bxor (bxor (xtime (xtime (xtime x))) (xtime x)) x
def mul13 (x : Byte) : Byte := bxor (bxor (xtime (xtime (xtime x))) (xtime (xtime x))) x
def mul14 (x : Byte) : Byte := bxor (bxor (xtime (xtime (xtime x))) (xtime (xtime x))) (xtime x)

/-- One state column. -/
structure Col where
  c0 : Byte
  c1 : Byte
  c2 : Byte
  c3 : Byte
  deriving DecidableEq

/-- MixColumns on one column (FIPS-197 §5.1.3). -/
def mixCol (q : Col) : Col :=
  ⟨bxor (bxor (bxor (mul2 q.c0) (mul3 q.c1)) q.c2) q.c3,
   bxor (bxor (bxor q.c0 (mul2 q.c1)) (mul3 q.c2)) q.c3,
   bxor (bxor (bxor q.c0 q.c1) (mul2 q.c2)) (mul3 q.c3),
   bxor (bxor (bxor (mul3 q.c0) q.c1) q.c2) (mul2 q.c3)⟩

/-- InvMixColumns on one column (FIPS-197 §5.3.3). -/
def invMixCol (q : Col) : Col :=
  ⟨bxor (bxor (bxor (mul14 q.c0) (mul11 q.c1)) (mul13 q.c2)) (mul9 q.c3),
   bxor (bxor (bxor (mul9 q.c0) (mul14 q.c1)) (mul11 q.c2)) (mul13 q.c3),
   bxor (bxor (bxor (mul13 q.c0) (mul9 q.c1)) (mul14 q.c2)) (mul11 q.c3),
   bxor (bxor (bxor (mul11 q.c0) (mul13 q.c1)) (mul9 q.c2)) (mul14 q.c3)⟩

/-- Component-wise xor of columns. -/
def colXor (u v : Col) : Col :=
  ⟨bxor u.c0 v.c0, bxor u.c1 v.c1, bxor u.c2 v.c2, bxor u.c3 v.c3⟩

def mixColumns (s : St) : St :=
  let q0 := mixCol ⟨s.a0, s.a1, s.a2, s.a3⟩
  let q1 := mixCol ⟨s.a4, s.a5, s.a6, s.a7⟩
  let q2 := mixCol ⟨s.a8, s.a9, s.a10, s.a11⟩
  let q3 := mixCol ⟨s.a12, s.a13, s.a14, s.a15⟩
  ⟨q0.c0, q0.c1, q0.c2, q0.c3, q1.c0, q1.c1, q1.c2, q1.c3,
   q2.c0, q2.c1, q2.c2, q2.c3, q3.c0, q3.c1, q3.c2, q3.c3⟩

def invMixColumns (s : St) : St :=
  let q0 := invMixCol ⟨s.a0, s.a1, s.a2, s.a3⟩
  let q1 := invMixCol ⟨s.a4, s.a5, s.a6, s.a7⟩
  let q2 := invMixCol ⟨s.a8, s.a9, s.a10, s.a11⟩
  let q3 := invMixCol ⟨s.a12, s.a13, s.a14, s.a15⟩
  ⟨q0.c0, q0.c1, q0.c2, q0.c3, q1.c0, q1.c1, q1.c2, q1.c3,
   q2.c0, q2.c1, q2.c2, q2.c3, q3.c0, q3.c1, q3.c2, q3.c3⟩

/-- AddRoundKey: xor the round key into the state. -/
def ark (k s : St) : St :=
  ⟨bxor s.a0 k.a0, bxor s.a1 k.a1, bxor s.a2 k.a2, bxor s.a3 k.a3,
   bxor s.a4 k.a4, bxor s.a5 k.a5, bxor s.a6 k.a6, bxor s.a7 k.a7,
   bxor s.a8 k.a8, bxor s.a9 k.a9, bxor s.a10 k.a10, bxor s.a11 k.a11,
   bxor s.a12 k.a12, bxor s.a13 k.a13, bxor s.a14 k.a14, bxor s.a15 k.a15⟩

/-- The encryption rounds after the initial AddRoundKey: a full round per key,
    except the last key which closes with the MixColumns-free final round. -/
def encRounds : St → List St → St
  | s, [] => s
  | s, [k] => ark k (shiftRows (subBytes s))
  | s, k :: ks => encRounds (ark k (mixColumns (shiftRows (subBytes s)))) ks

/-- The exact inverse of encRounds, consuming the same key list. -/
def decRounds : St → List St → St
  | s, [] => s
  | s, [k] => invSubBytes (invShiftRows (ark k s))
  | s, k :: ks => invSubBytes (invShiftRows (invMixColumns (ark k (decRounds s ks))))

/-- The AES block cipher over an expanded round-key list (11 keys for AES-128,
    15 for AES-256). -/
def aesEncSt (rks : List St) (pt : St) : St :=
  match rks with
  | [] => pt
  | k0 :: rest => encRounds (ark k0 pt) rest

/-- The AES block decipher (the function the external aes crate computes as
    the FIPS-197 inverse cipher). -/
def aesDecSt (rks : List St) (ct : St) : St :=
  match rks with
  | [] => ct
  | k0 :: rest => ark k0 (decRounds ct rest)

/-! ### Key expansion (FIPS-197 §5.2) -/

/-- Round constant rcon i = x^(i-1) in GF(2^8). -/
def rcon : Nat → Byte
  | 0 => ⟨1, by norm_num⟩
  | 1 => ⟨1, by norm_num⟩
  | n + 2 => xtime (rcon (n + 1))

def subWord (w : List Byte) : List Byte := w.map sbox

def rotWord (w : List Byte) : List Byte := w.drop 1 ++ w.take 1

def xorWord (u v : List Byte) : List Byte := List.zipWith bxor u v

/-- One key-expansion step: acc holds the words generated so far in reverse
    order; i is the index of the word being generated. -/
def keyExpandStep (nk : Nat) (acc : List (List Byte)) (i : Nat) : List (List Byte) :=
  let prev := acc.headD []
  let temp :=
    if i % nk == 0 then xorWord (subWord (rotWord prev)) [rcon (i / nk), 0, 0, 0]
    else if nk > 6 && i % nk == 4 then subWord prev
    else prev
  xorWord (acc.getD (nk - 1) []) temp :: acc

/-- All nw expanded words for a key of nk words. -/
def keyExpandWords (nk nw : Nat) (key : List Byte) : List (List Byte) :=
  let initW := (List.range nk).map (fun i => (key.drop (4 * i)).take 4)
  (((List.range (nw - nk)).map (fun i => i + nk)).foldl (keyExpandStep nk) initW.reverse).reverse

/-! ### Byte-list plumbing: chunking, state conversion, CBC -/

/-- Fuel-indexed chunking of a list into k-byte pieces (fuel only for
    structural termination; chunksOf supplies enough). -/
def chunksOfGo (k : Nat) : Nat → List Byte → List (List Byte)
  | 0, _ => []
  | _ + 1, [] => []
  | f + 1, l => l.take k :: chunksOfGo k f (l.drop k)

def chunksOf (k : Nat) (l : List Byte) : List (List Byte) := chunksOfGo k l.length l

/-- A 16-byte block as an AES state (short lists are zero-filled; all uses
    supply exactly 16 bytes). -/
def toSt (l : List Byte) : St :=
  ⟨l.getD 0 0, l.getD 1 0, l.getD 2 0, l.getD 3 0, l.getD 4 0, l.getD 5 0, l.getD 6 0,
   l.getD 7 0, l.getD 8 0, l.getD 9 0, l.getD 10 0, l.getD 11 0, l.getD 12 0, l.getD 13 0,
   l.getD 14 0, l.getD 15 0⟩

def fromSt (s : St) : List Byte :=
  [s.a0, s.a1, s.a2, s.a3, s.a4, s.a5, s.a6, s.a7,
   s.a8, s.a9, s.a10, s.a11, s.a12, s.a13, s.a14, s.a15]

/-- Round keys of a flattened expanded key. -/
def roundKeysOfWords (ws : List (List Byte)) : List St := (chunksOf 16 ws.flatten).map toSt

def aesEncBytes (rks : List St) (b : List Byte) : List Byte := fromSt (aesEncSt rks (toSt b))

def aesDecBytes (rks : List St) (b : List Byte) : List Byte := fromSt (aesDecSt rks (toSt b))

def xorBytes (u v : List Byte) : List Byte := List.zipWith bxor u v

/-- CBC encryption over whole blocks: each ciphertext block chains into the
    next (the mode the external block_modes crate implements). -/
def cbcEncBlocks (rks : List St) (iv : List Byte) : List (List Byte) → List (List Byte)
  | [] => []
  | b :: bs =>
    let c := aesEncBytes rks (xorBytes iv b)
    c :: cbcEncBlocks rks c bs

def cbcDecBlocks (rks : List St) (iv : List Byte) : List (List Byte) → List (List Byte)
  | [] => []
  | c :: cs => xorBytes iv (aesDecBytes rks c) :: cbcDecBlocks rks c cs

def cbcEnc (rks : List St) (iv l : List Byte) : List Byte :=
  (cbcEncBlocks rks iv (chunksOf 16 l)).flatten

def cbcDec (rks : List St) (iv l : List Byte) : List Byte :=
  (cbcDecBlocks rks iv (chunksOf 16 l)).flatten

/-! ### The cipher capability (src/cryptor/aes.rs, src/cryptor/builder.rs)

AesCryptor wraps the external aes + block_modes crates: AES-128/256 in CBC
mode with the fixed IV below, the repository's own ZeroPadding (whose unpad
is the identity), and the 16-byte auth_key which is also the key material
(AES-256 replicates it to 32 bytes in AesCryptor::new). -/

/-- The first 16 bytes of the fixed IV table of src/cryptor/aes.rs. -/
def ivBytes : List Byte :=
  [0xab, 0xcd, 0xef, 0x12, 0x34, 0x56, 0x78, 0x90,
   0xab, 0xcd, 0xef, 0x12, 0x34, 0x56, 0x78, 0x90]

inductive CipherKind
  | aes128
  | aes256
  deriving DecidableEq

structure Cryptor where
  kind : CipherKind
  authKey : List Byte
  deriving DecidableEq

/-- The expanded round keys of a cryptor: AES-128 uses auth_key directly,
    AES-256 replicates it (AesCryptor::new fills the key by copying auth_key
    for each 16-byte chunk). -/
def cryptorRoundKeys (c : Cryptor) : List St :=
  match c.kind with
  | .aes128 => roundKeysOfWords (keyExpandWords 4 44 c.authKey)
  | .aes256 => roundKeysOfWords (keyExpandWords 8 60 (c.authKey ++ c.authKey))

/-- ZeroPadding::pad as used through block_modes encrypt_vec: zero-fill the
    tail block; nothing is appended when the length is already a multiple of
    the 16-byte block (src/cryptor/aes.rs, pad). -/
def zeroPad (l : List Byte) : List Byte :=
  l ++ List.replicate ((16 - l.length % 16) % 16) (0 : Byte)

/-- The error kinds of src/error.rs that this development needs. -/
inductive Err
  | InvalidPacket
  | DecryptFail
  | EncryptFail
  | InvalidArg
  | NoRoute
  | IoErr
  deriving DecidableEq

/-- Cryptor::encrypt_vec: CBC-encrypt the zero-padded buffer under the fixed IV. -/
def encrypt_vec (c : Cryptor) (data : List Byte) : List Byte :=
  cbcEnc (cryptorRoundKeys c) ivBytes (zeroPad data)

/-- Cryptor::decrypt (and decrypt_vec): CBC-decrypt in place; block_modes
    rejects a length that is not a block multiple; ZeroPadding::unpad is the
    identity, so the zero padding stays on the plaintext. -/
def decrypt_vec (c : Cryptor) (data : List Byte) : Except Err (List Byte) :=
  if data.length % 16 = 0 then .ok (cbcDec (cryptorRoundKeys c) ivBytes data)
  else .error .DecryptFail

/-! ### MD5 and secret_to_key (src/cryptor/builder.rs)

secret_to_key hashes the secret string's bytes with MD5 (RFC 1321); the MD5
primitive itself lives in the external md5 crate and is embedded here from
its standard definition. -/

def md5K : List Nat :=
 [
  3614090360, 3905402710, 606105819, 3250441966, 4118548399, 1200080426, 2821735955, 4249261313,
  1770035416, 2336552879, 4294925233, 2304563134, 1804603682, 4254626195, 2792965006, 1236535329,
  4129170786, 3225465664, 643717713, 3921069994, 3593408605, 38016083, 3634488961, 3889429448,
  568446438, 3275163606, 4107603335, 1163531501, 2850285829, 4243563512, 1735328473, 2368359562,
  4294588738, 2272392833, 1839030562, 4259657740, 2763975236, 1272893353, 4139469664, 3200236656,
  681279174, 3936430074, 3572445317, 76029189, 3654602809, 3873151461, 530742520, 3299628645,
  4096336452, 1126891415, 2878612391, 4237533241, 1700485571, 2399980690, 4293915773, 2240044497,
  1873313359, 4264355552, 2734768916, 1309151649, 4149444226, 3174756917, 718787259, 3951481745]

def md5S : List Nat :=
 [7, 12, 17, 22, 7, 12, 17, 22, 7, 12, 17, 22, 7, 12, 17, 22,
  5, 9, 14, 20, 5, 9, 14, 20, 5, 9, 14, 20, 5, 9, 14, 20,
  4, 11, 16, 23, 4, 11, 16, 23, 4, 11, 16, 23, 4, 11, 16, 23,
  6, 10, 15, 21, 6, 10, 15, 21, 6, 10, 15, 21, 6, 10, 15, 21]

def w32 : Nat := 4294967296

def rotl32 (x s : Nat) : Nat := ((x <<< s) ||| (x >>> (32 - s))) % w32

/-- The per-step mixing function of round i (F, G, H, I). -/
def md5F (i b c d : Nat) : Nat :=
  if i < 16 then (b &&& c) ||| ((4294967295 ^^^ b) &&& d)
  else if i < 32 then (d &&& b) ||| ((4294967295 ^^^ d) &&& c)
  else if i < 48 then b ^^^ c ^^^ d
  else c ^^^ (b ||| (4294967295 ^^^ d))

/-- The message-word index used at step i. -/
def md5G (i : Nat) : Nat :=
  if i < 16 then i
  else if i < 32 then (5 * i + 1) % 16
  else if i < 48 then (3 * i + 5) % 16
  else (7 * i) % 16

/-- Little-endian word of four bytes. -/
def leWord (l : List Byte) : Nat :=
  (l.getD 0 0).val + 256 * (l.getD 1 0).val + 65536 * (l.getD 2 0).val
    + 16777216 * (l.getD 3 0).val

/-- A Nat as k little-endian bytes. -/
def leBytes : Nat → Nat → List Byte
  | 0, _ => []
  | k + 1, n => ⟨n % 256, Nat.mod_lt _ (by norm_num)⟩ :: leBytes k (n / 256)

/-- One MD5 step applied to the running (a,b,c,d) state. -/
def md5Step (m : List Nat) (st : Nat × Nat × Nat × Nat) (i : Nat) : Nat × Nat × Nat × Nat :=
  let (a, b, c, d) := st
  let f := (md5F i b c d + a + md5K.getD i 0 + m.getD (md5G i) 0) % w32
  (d, (b + rotl32 f (md5S.getD i 0)) % w32, b, c)

/-- Process one 64-byte chunk. -/
def md5Chunk (st : Nat × Nat × Nat × Nat) (chunk : List Byte) : Nat × Nat × Nat × Nat :=
  let m := (chunksOf 4 chunk).map leWord
  let (a, b, c, d) := (List.range 64).foldl (md5Step m) st
  let (a0, b0, c0, d0) := st
  ((a0 + a) % w32, (b0 + b) % w32, (c0 + c) % w32, (d0 + d) % w32)

/-- RFC 1321 padding: 0x80, zeros to 56 mod 64, then the bit length as a
    little-endian 64-bit quantity. -/
def md5Pad (msg : List Byte) : List Byte :=
  let padZeros := (119 - msg.length % 64) % 64
  msg ++ (⟨0x80, by norm_num⟩ : Byte) :: List.replicate padZeros (0 : Byte)
    ++ leBytes 8 ((8 * msg.length) % 18446744073709551616)

/-- The MD5 digest of a byte string, as 16 bytes. -/
def md5 (msg : List Byte) : List Byte :=
  let (a, b, c, d) :=
    (chunksOf 64 (md5Pad msg)).foldl md5Chunk (1732584193, 4023233417, 2562383102, 271733878)
  leBytes 4 a ++ leBytes 4 b ++ leBytes 4 c ++ leBytes 4 d

/-- secret_to_key of src/cryptor/builder.rs: the MD5 digest of the secret
    string's bytes is the 16-byte auth key / key material. -/
def secret_to_key (secret : List Byte) : List Byte := md5 secret

/-! ### The wire envelope (src/msg/msg.rs)

buildMsg models the successful builder chain (op and payload both set, which
Builder::build requires): the 20-byte header is op, one reserved zero byte, a
big-endian sequence number, a 16-byte auth slot (zero until finalization),
then the payload; with a cryptor, the finalizer copies auth_key into bytes
4..20 and encrypts the whole buffer. -/

inductive Op
  | EchoReq
  | IpData
  | Disconnect
  | EchoAck
  deriving DecidableEq

/-- The discriminant of Op (its repr u8 in src/msg/msg.rs). -/
def opByte : Op → Byte
  | .EchoReq => 0
  | .IpData => 1
  | .Disconnect => 2
  | .EchoAck => 3

/-- Op::try_from on a byte (num_enum TryFromPrimitive), InvalidPacket on
    an unknown discriminant. -/
def opOfByte (b : Byte) : Except Err Op :=
  if b.val = 0 then .ok .EchoReq
  else if b.val = 1 then .ok .IpData
  else if b.val = 2 then .ok .Disconnect
  else if b.val = 3 then .ok .EchoAck
  else .error .InvalidPacket

def seqHi (s : Fin 65536) : Byte := ⟨s.val / 256, by omega⟩

def seqLo (s : Fin 65536) : Byte := ⟨s.val % 256, Nat.mod_lt _ (by norm_num)⟩

/-- The builder's buffer before finalization: op, a reserved zero byte, the
    big-endian sequence number, the still-zero 16-byte auth slot, the payload. -/
def buildMsgRaw (op : Op) (seq : Fin 65536) (p : List Byte) : List Byte :=
  opByte op :: (0 : Byte) :: seqHi seq :: seqLo seq
    :: (List.replicate 16 (0 : Byte) ++ p)

/-- Builder::build for the message envelope: without a cryptor the raw buffer,
    with one the finalizer copies auth_key into bytes 4..20 and encrypts. -/
def buildMsg (op : Op) (seq : Fin 65536) (p : List Byte) (c : Option Cryptor) : List Byte :=
  match c with
  | none => buildMsgRaw op seq p
  | some cr =>
    encrypt_vec cr
      ((buildMsgRaw op seq p).take 4 ++ cr.authKey ++ (buildMsgRaw op seq p).drop 20)

structure Packet where
  bytes : List Byte
  deriving DecidableEq

/-- Packet::new: the buffer must hold at least the 20-byte header. -/
def packetNew (l : List Byte) : Except Err Packet :=
  if l.length < 20 then .error .InvalidPacket else .ok ⟨l⟩

/-- Packet::with_cryptor: length check, optional in-place decryption, then
    the decrypted bytes 4..20 must equal the cryptor's auth_key. -/
def with_cryptor (buf : List Byte) (c : Option Cryptor) : Except Err Packet :=
  if buf.length < 20 then .error .InvalidPacket
  else
    match c with
    | none => packetNew buf
    | some cr =>
      match decrypt_vec cr buf with
      | .error e => .error e
      | .ok out =>
        if (out.drop 4).take 16 = cr.authKey then packetNew out
        else .error .InvalidPacket

/-- Packet::seq: big-endian u16 at offset 2. -/
def Packet.seqVal (p : Packet) : Nat :=
  256 * (p.bytes.getD 2 0).val + (p.bytes.getD 3 0).val

/-- Packet::op. -/
def Packet.opRes (p : Packet) : Except Err Op := opOfByte (p.bytes.getD 0 0)

/-- Packet::payload: everything after the 20-byte header. -/
def Packet.payload (p : Packet) : List Byte := p.bytes.drop 20

/-! ### The inner IpData payload (src/msg/ipdata.rs) -/

structure IpDataPkt where
  bytes : List Byte
  deriving DecidableEq

/-- ipdata Packet::new: at least the 4-byte kind+length header. -/
def ipdata_new (l : List Byte) : Except Err IpDataPkt :=
  if l.length < 4 then .error .InvalidPacket else .ok ⟨l⟩

/-- ipdata Packet::payload_length: big-endian u16 at offset 2. -/
def IpDataPkt.payload_length (p : IpDataPkt) : Nat :=
  256 * (p.bytes.getD 2 0).val + (p.bytes.getD 3 0).val

/-- ipdata Packet::payload: exactly payload_length bytes after the header,
    InvalidPacket when the buffer is shorter. -/
def IpDataPkt.payload (p : IpDataPkt) : Except Err (List Byte) :=
  if p.bytes.length < 4 + p.payload_length then .error .InvalidPacket
  else .ok ((p.bytes.drop 4).take p.payload_length)

/-! ### IP addresses, nets and inner-packet address extraction (src/util.rs)

Rust panics (out-of-bounds slicing) are modelled explicitly through RRes,
because the spec claims the engine never panics on a received datagram. -/

/-- An IpAddr: the numeric value of the address (v4 below 2^32, v6 below 2^128). -/
inductive IpA
  | v4 (a : Nat)
  | v6 (a : Nat)
  deriving DecidableEq

/-- IpAddr::is_unspecified: the all-zero address of either family. -/
def IpA.is_unspecified : IpA → Bool
  | .v4 a => a = 0
  | .v6 a => a = 0

/-- An ipnet::IpNet: network address plus prefix length. -/
inductive IpNetM
  | v4 (netaddr plen : Nat)
  | v6 (netaddr plen : Nat)
  deriving DecidableEq

/-- IpNet::contains: same family and equal after truncating to the prefix. -/
def netContains : IpNetM → IpA → Bool
  | .v4 n p, .v4 a => n / 2 ^ (32 - p) = a / 2 ^ (32 - p)
  | .v6 n p, .v6 a => n / 2 ^ (128 - p) = a / 2 ^ (128 - p)
  | _, _ => false

/-- The result of Rust code that can return, fail with an error, or panic. -/
inductive RRes (α : Type)
  | ok (a : α)
  | err (e : Err)
  | panicked
  deriving DecidableEq

/-- Big-endian value of a byte list. -/
def beNat (l : List Byte) : Nat := l.foldl (fun acc b => 256 * acc + b.val) 0

/-- A Nat as k big-endian bytes. -/
def beBytes (k n : Nat) : List Byte := (leBytes k n).reverse

/-- util::source_ip: the version nibble selects v4 (source at bytes 12..16)
    or v6 (source at bytes 8..24); a buffer too short for the slices panics
    (index out of bounds), any other nibble is InvalidPacket. -/
def source_ip (pkt : List Byte) : RRes IpA :=
  match pkt with
  | [] => .panicked
  | b :: _ =>
    match b.val / 16 with
    | 4 => if pkt.length < 16 then .panicked else .ok (.v4 (beNat ((pkt.drop 12).take 4)))
    | 6 => if pkt.length < 24 then .panicked else .ok (.v6 (beNat ((pkt.drop 8).take 16)))
    | _ => .err .InvalidPacket

/-- util::dest_ip: v4 destination at bytes 16..20, v6 at bytes 24..40. -/
def dest_ip (pkt : List Byte) : RRes IpA :=
  match pkt with
  | [] => .panicked
  | b :: _ =>
    match b.val / 16 with
    | 4 => if pkt.length < 20 then .panicked else .ok (.v4 (beNat ((pkt.drop 16).take 4)))
    | 6 => if pkt.length < 40 then .panicked else .ok (.v6 (beNat ((pkt.drop 24).take 16)))
    | _ => .err .InvalidPacket

/-! ### The route table (src/route.rs)

RefRA is an Rc-shared cell; the sharing is modelled by a cell store indexed
by a fresh Nat id, so that VA records and the RA map reference the same
mutable RealAddr.  Instant is a Nat passed in as now; the random sequence
seed of RealAddr::new is an explicit seed parameter. -/

abbrev SockAddr := Nat

structure RealAddr where
  addr : SockAddr
  last_recv : Nat
  xmit_seq : Nat
  deriving DecidableEq

structure VirtualAddr where
  va : IpA
  ra : Nat
  last_recv : Nat
  deriving DecidableEq

/-- Association-list lookup (the model of HashMap keyed access). -/
def alookup {κ ν : Type} [DecidableEq κ] : List (κ × ν) → κ → Option ν
  | [], _ => none
  | (k', v) :: rest, k => if k' = k then some v else alookup rest k

/-- Association-list insert-or-replace. -/
def aset {κ ν : Type} [DecidableEq κ] : List (κ × ν) → κ → ν → List (κ × ν)
  | [], k, v => [(k, v)]
  | (k', v') :: rest, k, v =>
    if k' = k then (k, v) :: rest else (k', v') :: aset rest k v

structure RouteTable where
  cells : List (Nat × RealAddr)
  nextId : Nat
  ra_map : List (SockAddr × Nat)
  va_map : List (IpA × VirtualAddr)
  vt_routes : List (IpNetM × IpA)
  deriving DecidableEq

def RouteTable.empty : RouteTable := ⟨[], 0, [], [], []⟩

/-- Dereference a RefRA handle (all handles used point into the store). -/
def cellOf (rt : RouteTable) (id : Nat) : RealAddr := (alookup rt.cells id).getD ⟨0, 0, 0⟩

/-- RefRA::addr. -/
def cellAddr (rt : RouteTable) (id : Nat) : SockAddr := (cellOf rt id).addr

/-- RefRA::recv: touch last_recv through the shared cell. -/
def cellTouch (rt : RouteTable) (id now : Nat) : RouteTable :=
  { rt with cells := rt.cells.map fun e =>
      if e.1 = id then (e.1, { e.2 with last_recv := now }) else e }

/-- RealAddr::next_seq through the shared cell: increment mod 2^16, return it. -/
def cellNextSeq (rt : RouteTable) (id : Nat) : Nat × RouteTable :=
  let s := ((cellOf rt id).xmit_seq + 1) % 65536
  (s, { rt with cells := rt.cells.map fun e =>
      if e.1 = id then (e.1, { e.2 with xmit_seq := s }) else e })

/-- RouteTable::contains. -/
def RouteTable.contains (rt : RouteTable) (va : IpA) : Bool :=
  (alookup rt.va_map va).isSome

/-- RouteTable::add_route: push onto the route vector. -/
def add_route (rt : RouteTable) (net : IpNetM) (gw : IpA) : RouteTable :=
  { rt with vt_routes := (rt.vt_routes ++ [(net, gw)]) }

/-- RouteTable::get_or_add_ra: touch the existing RA, or insert a fresh one
    with a randomly seeded sequence counter. -/
def get_or_add_ra (now seed : Nat) (addr : SockAddr) (rt : RouteTable) : Nat × RouteTable :=
  match alookup rt.ra_map addr with
  | some id => (id, cellTouch rt id now)
  | none =>
    let id := rt.nextId
    let rt' := { rt with
      cells := ((id, ⟨addr, now, seed % 65536⟩) :: rt.cells)
      nextId := id + 1
      ra_map := aset rt.ra_map addr id }
    (id, rt')

/-- RouteTable::add_or_update_va: refuse the unspecified address; otherwise
    touch last_recv and re-target the RA handle when its transport address
    differs from the given one, or insert a fresh VA. -/
def add_or_update_va (now : Nat) (va : IpA) (raId : Nat) (rt : RouteTable) :
    Option VirtualAddr × RouteTable :=
  if va.is_unspecified then (none, rt)
  else
    match alookup rt.va_map va with
    | some v =>
      let newRa := if cellAddr rt v.ra ≠ cellAddr rt raId then raId else v.ra
      let v' := { v with last_recv := now, ra := newRa }
      (some v', { rt with va_map := aset rt.va_map va v' })
    | none =>
      let v : VirtualAddr := ⟨va, raId, now⟩
      (some v, { rt with va_map := aset rt.va_map va v })

/-- The scanning loop of RouteTable::get_rt_route: walk the configured routes
    in insertion order; on a matching net look the gateway up in the VA map
    and stop at the first bound gateway. -/
def scan_vt_routes (rt : RouteTable) (va : IpA) : List (IpNetM × IpA) → Option Nat
  | [] => none
  | (net, gw) :: rest =>
    if netContains net va then
      match alookup rt.va_map gw with
      | some gva => some gva.ra
      | none => scan_vt_routes rt va rest
    else scan_vt_routes rt va rest

/-- RouteTable::get_rt_route: adopt the scanned gateway RA for this VA. -/
def get_rt_route (now : Nat) (va : IpA) (rt : RouteTable) :
    Option VirtualAddr × RouteTable :=
  match scan_vt_routes rt va rt.vt_routes with
  | none => (none, rt)
  | some raId => add_or_update_va now va raId rt

/-- RouteTable::get_route: the VA directly when bound, else the configured
    routes. -/
def get_route (now : Nat) (va : IpA) (rt : RouteTable) :
    Option VirtualAddr × RouteTable :=
  match alookup rt.va_map va with
  | some v => (some v, rt)
  | none => get_rt_route now va rt

/-- RouteTable::prune: drop VAs, then RAs, whose last_recv is older than the
    timeout (duration_since saturates, hence Nat subtraction). -/
def prune (now timeout : Nat) (rt : RouteTable) : RouteTable :=
  { rt with
    va_map := rt.va_map.filter fun e => decide (now - e.2.last_recv ≤ timeout),
    ra_map := rt.ra_map.filter fun e => decide (now - (cellOf rt e.2).last_recv ≤ timeout) }

/-! ### The server engine (src/server.rs) -/

structure Stat where
  rx_bytes : Nat
  tx_bytes : Nat
  deriving DecidableEq

/-- The parts of the server touched by a received datagram: the route table,
    the per-VIP statistics, and the packets written to the TUN device. -/
structure ServerSt where
  route : RouteTable
  stats : List (IpA × Stat)
  tunWrites : List (List Byte)
  deriving DecidableEq

def bumpRx (stats : List (IpA × Stat)) (k : IpA) (n : Nat) : List (IpA × Stat) :=
  let s := (alookup stats k).getD ⟨0, 0⟩
  aset stats k { s with rx_bytes := s.rx_bytes + n }

/-- Server::forward_local: extract the inner source IP (the q-mark propagates
    its errors), learn the RA, add-or-update the VA; an unspecified source is
    dropped with a log; otherwise count rx and write v4/v6 packets to TUN
    (the TUN write itself is modelled as succeeding; its IoError would also
    propagate through the q-mark on write). -/
def forward_local (now seed : Nat) (ra : SockAddr) (pkt : List Byte) (st : ServerSt) :
    RRes ServerSt :=
  match source_ip pkt with
  | .panicked => .panicked
  | .err e => .err e
  | .ok src =>
    let gr := get_or_add_ra now seed ra st.route
    let av := add_or_update_va now src gr.1 gr.2
    match av.1 with
    | none => .ok { st with route := av.2 }
    | some _ =>
      let stats := bumpRx st.stats src pkt.length
      match pkt with
      | [] => .panicked
      | b :: _ =>
        if b.val / 16 = 4 ∨ b.val / 16 = 6 then
          .ok { st with route := av.2, stats := stats, tunWrites := (st.tunWrites ++ [pkt]) }
        else .ok { st with route := av.2, stats := stats }

/-- echo Packet::ip_addr (src/msg/echo.rs): reads bytes 0..4 and 4..20 of the
    echo payload with panicking slices; there is no length guard. -/
def echo_ip_addr (l : List Byte) : RRes (Nat × Nat) :=
  if l.length < 4 then .panicked
  else if l.length < 20 then .panicked
  else .ok (beNat (l.take 4), beNat ((l.drop 4).take 16))

/-- echo Packet::id: big-endian u32 at bytes 20..24; the slice at 20 panics
    below 20 bytes, a short read past that is an io error. -/
def echo_id (l : List Byte) : RRes Nat :=
  if l.length < 20 then .panicked
  else if l.length < 24 then .err .IoErr
  else .ok (beNat ((l.drop 20).take 4))

/-- Server::handle_echo_req: learn the RA, bind each specified advertised
    address to it, then reply with an EchoAck built under the RA's next
    sequence number (the reply's bytes and the ignored send are not tracked;
    the id read propagates its error through the q-mark). -/
def handle_echo_req (now seed : Nat) (src : SockAddr) (payload : List Byte) (st : ServerSt) :
    RRes ServerSt :=
  match echo_ip_addr payload with
  | .panicked => .panicked
  | .err e => .err e
  | .ok (va4, va6) =>
    let gr := get_or_add_ra now seed src st.route
    let rt1 := if va4 ≠ 0 then (add_or_update_va now (.v4 va4) gr.1 gr.2).2 else gr.2
    let rt2 := if va6 ≠ 0 then (add_or_update_va now (.v6 va6) gr.1 rt1).2 else rt1
    match echo_id payload with
    | .panicked => .panicked
    | .err e => .err e
    | .ok _ => .ok { st with route := (cellNextSeq rt2 gr.1).2 }

/-- Server::network_recv on one received datagram: a parse failure is only
    traced (swallowed); inner decode failures and forward_local failures
    propagate out of the handler through the q-mark. -/
def server_network_recv (c : Option Cryptor) (buf : List Byte) (src : SockAddr)
    (now seed : Nat) (st : ServerSt) : RRes ServerSt :=
  match with_cryptor buf c with
  | .error _ => .ok st
  | .ok msg =>
    match msg.opRes with
    | .ok .IpData =>
      match ipdata_new msg.payload with
      | .error e => .err e
      | .ok ip =>
        match ip.payload with
        | .error e => .err e
        | .ok inner => forward_local now seed src inner st
    | .ok .EchoReq => handle_echo_req now seed src msg.payload st
    | _ => .ok st

/-! ### Server keepalive and rebind (src/server.rs keepalive) -/

structure SSock where
  localAddr : Nat
  stale : Bool
  lastHealth : Option Nat
  deriving DecidableEq

structure SCfg where
  rebind : Bool
  rebind_timeout : Nat
  client_timeout : Nat
  deriving DecidableEq

structure ServerEng where
  route : RouteTable
  stats : List (IpA × Stat)
  socket : Option SSock
  last_rebind : Option Nat
  last_health : Option Nat
  deriving DecidableEq

/-- The rebind attempt inside Server::keepalive: record last_rebind, then ask
    the factory (factory is what create_socket would return; none models a
    missing rt.socket_factory); only a successful creation replaces the
    socket, a failure is logged and ignored. -/
def server_rebind_attempt (now : Nat) (factory : Option (Except Err SSock))
    (eng : ServerEng) : ServerEng :=
  let eng := { eng with last_rebind := some now }
  match factory with
  | some (.ok s) => { eng with socket := some s }
  | some (.error _) => eng
  | none => eng

/-- Server::keepalive: rebind when configured and the socket looks unhealthy
    and the rebind timeout elapsed; mirror the socket's health reading; prune
    the route table and drop statistics of pruned VIPs. -/
def server_keepalive (cfg : SCfg) (now : Nat) (factory : Option (Except Err SSock))
    (eng : ServerEng) : ServerEng :=
  let eng :=
    if cfg.rebind
        && ((eng.socket.map (·.stale)).getD true
            || (eng.last_health.map (fun l => decide (now - l > cfg.rebind_timeout))).getD true)
        && (eng.last_rebind.map (fun l => decide (now - l > cfg.rebind_timeout))).getD true then
      server_rebind_attempt now factory eng
    else eng
  let eng :=
    match eng.socket >>= (·.lastHealth) with
    | some lh => { eng with last_health := some lh }
    | none => eng
  let rt := prune now cfg.client_timeout eng.route
  { eng with route := rt, stats := eng.stats.filter fun e => rt.contains e.1 }

/-! ### The client engine (src/client.rs, src/state.rs) -/

structure CState where
  last_rebind : Option Nat
  last_ack : Option Nat
  last_connect : Option Nat
  last_echo : Option Nat
  last_rx : Option Nat
  xmit_seq : Nat
  rx_bytes : Nat
  tx_bytes : Nat
  deriving DecidableEq

structure CSock where
  localV6 : Bool
  peer : Option String
  stale : Bool
  deriving DecidableEq

structure CCfg where
  rebind : Bool
  holepunch : Bool
  reconnect_timeout : Nat
  rebind_timeout : Nat
  keepalive_interval : Nat
  server_addrs : List String
  deriving DecidableEq

structure Client where
  cfg : CCfg
  state : CState
  server_index : Nat
  socket : Option CSock
  factoryPresent : Bool
  deriving DecidableEq

/-- The check_timeout closure of Client::keepalive: unset, or older than the
    timeout (duration_since saturates). -/
def check_timeout (last_event : Option Nat) (timeout now : Nat) : Bool :=
  match last_event with
  | none => true
  | some event => decide (now - event > timeout)

/-- Client::get_next_server_addr: advance the index modulo the server count
    and return that server (callers guarantee a nonempty list; Rust would
    panic on division by zero otherwise). -/
def get_next_server_addr (c : Client) : String × Client :=
  let n := c.cfg.server_addrs.length
  let idx := (c.server_index + 1) % n
  (c.cfg.server_addrs.getD idx "", { c with server_index := idx })

/-- Client::rebind: last_rebind is set first; then the factory (what
    create_socket would return) either yields a socket that replaces the
    current one, or fails leaving everything else untouched; a missing
    factory is also a failure. -/
def rebind (now : Nat) (factory : Except Err CSock) (c : Client) :
    Except Err Unit × Client :=
  let c := { c with state := { c.state with last_rebind := some now } }
  if c.factoryPresent then
    match factory with
    | .ok s => (.ok (), { c with socket := some s })
    | .error e => (.error e, c)
  else (.error .InvalidArg, c)

/-- Client::connect: without a socket this is a no-op (early return); with
    one, the socket is connected to the address and last_connect recorded. -/
def connect (now : Nat) (addr : String) (c : Client) : Client :=
  match c.socket with
  | none => c
  | some s =>
    { c with socket := some { s with peer := some addr },
             state := { c.state with last_connect := some now } }

/-- Client::is_rebind_required: forced under holepunch; otherwise a missing
    socket, or a local address family differing from the next bind family. -/
def is_rebind_required (c : Client) (nextBindV6 : Bool) : Bool :=
  c.cfg.holepunch ||
    match c.socket with
    | none => true
    | some s => s.localV6 != nextBindV6

/-- util::choose_bind_addr: resolve the first target (resolver models DNS:
    an error, no address, or the family of the first resolved address) and
    bind in its family, defaulting to v4. -/
def choose_bind_addr (resolver : String → Except Err (Option Bool))
    (servers : List String) : Except Err Bool :=
  match servers.head? with
  | some addr =>
    match resolver addr with
    | .error e => .error e
    | .ok (some isV6) => .ok isV6
    | .ok none => .ok false
  | none => .ok false

/-- What a client keepalive tick did: the address the socket was connected
    to (when a socket existed), and whether the echo branch fired. -/
structure KEffects where
  connected : Option String
  echoSent : Bool
  deriving DecidableEq

/-- The echo half of Client::keepalive: when last_echo timed out, record it
    and send an EchoReq (send_echo is a no-op without a socket; the sent
    bytes are not tracked). -/
def echo_step (now : Nat) (c : Client) (eff : KEffects) : Client × KEffects :=
  if check_timeout c.state.last_echo c.cfg.keepalive_interval now then
    ({ c with state := { c.state with last_echo := some now } },
     { eff with echoSent := true })
  else (c, eff)

/-- Client::keepalive: when none of last_ack, last_rx, last_connect is fresh
    within reconnect_timeout, rotate to the next server, maybe rebind (its
    failure is discarded), connect; then the echo branch.  choose_bind_addr
    failure propagates out of the handler. -/
def client_keepalive (now : Nat) (resolver : String → Except Err (Option Bool))
    (factory : Except Err CSock) (c : Client) : Except Err (Client × KEffects) :=
  if check_timeout c.state.last_ack c.cfg.reconnect_timeout now
      && check_timeout c.state.last_rx c.cfg.reconnect_timeout now
      && check_timeout c.state.last_connect c.cfg.reconnect_timeout now then
    let ns := get_next_server_addr c
    let next_server := ns.1
    let c := ns.2
    match choose_bind_addr resolver [next_server] with
    | .error e => .error e
    | .ok bindV6 =>
      let c :=
        if (c.cfg.rebind || is_rebind_required c bindV6)
            && check_timeout c.state.last_rebind c.cfg.rebind_timeout now then
          (rebind now factory c).2
        else c
      let eff : KEffects := ⟨if c.socket.isSome then some next_server else none, false⟩
      let c := connect now next_server c
      .ok (echo_step now c eff)
  else .ok (echo_step now c ⟨none, false⟩)

/-! ### The reactor loop (src/poll.rs) -/

inductive HAct
  | keepalive
  | tun
  | socket
  | control
  deriving DecidableEq

structure PollInput where
  tunReady : Bool
  sockPresent : Bool
  sockReady : Bool
  ctrlPresent : Bool
  ctrlReady : Bool
  exitPresent : Bool
  exitReady : Bool
  deriving DecidableEq

inductive PollOutcome
  | cleanExit
  | errExit (e : Err)
  | nextTick
  deriving DecidableEq

/-- The select timeout of poll(): timeval with tv_sec 2, tv_usec 0. -/
def poll_timeout_secs : Nat := 2

/-- The canonical handler order of one reactor tick: keepalive first, then
    the ready descriptors among tun, socket, control, each once. -/
def canonicalTrace (inp : PollInput) : List HAct :=
  [HAct.keepalive]
    ++ (if inp.tunReady then [HAct.tun] else [])
    ++ (if inp.sockPresent && inp.sockReady then [HAct.socket] else [])
    ++ (if inp.ctrlPresent && inp.ctrlReady then [HAct.control] else [])

/-- One iteration of the poll() loop after select returns: leave cleanly on
    the exit signal, otherwise run keepalive, then the tun, socket and
    control handlers for the ready descriptors; every q-marked handler error
    ends the loop.  Returns the trace of handler invocations and how the
    iteration ended. -/
def poll_tick (inp : PollInput) (hres : HAct → Except Err Unit) :
    List HAct × PollOutcome :=
  if inp.exitPresent && inp.exitReady then ([], .cleanExit)
  else
    match hres .keepalive with
    | .error e => ([.keepalive], .errExit e)
    | .ok _ =>
      let t0 := [HAct.keepalive]
      let (t1, r1) : List HAct × Option Err :=
        if inp.tunReady then
          match hres .tun with
          | .error e => (t0 ++ [.tun], some e)
          | .ok _ => (t0 ++ [.tun], none)
        else (t0, none)
      match r1 with
      | some e => (t1, .errExit e)
      | none =>
        let (t2, r2) : List HAct × Option Err :=
          if inp.sockPresent && inp.sockReady then
            match hres .socket with
            | .error e => (t1 ++ [.socket], some e)
            | .ok _ => (t1 ++ [.socket], none)
          else (t1, none)
        match r2 with
        | some e => (t2, .errExit e)
        | none =>
          if inp.ctrlPresent && inp.ctrlReady then (t2 ++ [.control], .nextTick)
          else (t2, .nextTick)

/-! ### Helper definitions for the statements of the claims -/

/-- The round_up of the spec: the least multiple of 16 at or above n. -/
def roundUp16 (n : Nat) : Nat := 16 * ((n + 15) / 16)

/-- The zero padding that survives parsing (ZeroPadding::unpad is a no-op):
    none without a cipher, the tail of the last block with one. -/
def padTail (n : Nat) (c : Option Cryptor) : Nat :=
  match c with
  | none => 0
  | some _ => (16 - n % 16) % 16

def RRes.map {α β : Type} (f : α → β) : RRes α → RRes β
  | .ok a => .ok (f a)
  | .err e => .err e
  | .panicked => .panicked

/-- Iterate Client::keepalive over a list of tick times, collecting the
    addresses connected to. -/
def keepalive_iter (resolver : String → Except Err (Option Bool))
    (factory : Except Err CSock) : Client → List Nat → Except Err (Client × List String)
  | c, [] => .ok (c, [])
  | c, t :: ts =>
    match client_keepalive t resolver factory c with
    | .error e => .error e
    | .ok (c', eff) =>
      match keepalive_iter resolver factory c' ts with
      | .error e => .error e
      | .ok (c'', targets) => .ok (c'', eff.connected.toList ++ targets)

/-- The tick times of a silence period: at each time the previous connect
    (initially the given one) has exceeded the reconnect timeout. -/
def ticksQualify (reconnect_timeout : Nat) : Option Nat → List Nat → Prop
  | _, [] => True
  | lastConnect, t :: ts =>
    check_timeout lastConnect reconnect_timeout t = true
      ∧ ticksQualify reconnect_timeout (some t) ts

/-! ### Concrete scenario data used by witnesses and counterexamples -/

/-- The AES-128 cryptor derived from the secret string a. -/
def cSecA : Cryptor := ⟨.aes128, secret_to_key [0x61]⟩

/-- The AES-128 cryptor derived from the secret string b. -/
def cSecB : Cryptor := ⟨.aes128, secret_to_key [0x62]⟩

/-- A well-formed 20-byte IPv4 header fragment with source 10.0.0.9 and
    destination 10.0.0.1. -/
def pktV1 : List Byte :=
  [0x45, 0, 0, 0, 0, 0, 0, 0, 0, 0, 0, 0, 10, 0, 0, 9, 10, 0, 0, 1]

/-- An IPv4 fragment whose source is the unspecified address 0.0.0.0. -/
def pktUnspec : List Byte :=
  [0x45, 0, 0, 0, 0, 0, 0, 0, 0, 0, 0, 0, 0, 0, 0, 0, 10, 0, 0, 1]

/-- The empty server state. -/
def emptySrv : ServerSt := ⟨RouteTable.empty, [], []⟩

/-- A received 20-byte plaintext datagram with op IpData and an empty
    payload: it parses, but the inner IpData decode fails. -/
def c4input : List Byte := [1, 0, 0, 0] ++ List.replicate 16 (0 : Byte)

/-- A received 20-byte plaintext datagram with op EchoReq and an empty
    payload: echo::Packet::ip_addr slices out of bounds. -/
def c4echoInput : List Byte := [0, 0, 0, 0] ++ List.replicate 16 (0 : Byte)

/-- A tick where tun and socket are ready, no control or exit fd exists. -/
def pollInputC4 : PollInput := ⟨true, true, true, false, false, false, false⟩

/-- Handler outcomes where only the socket handler fails. -/
def hresC4 : HAct → Except Err Unit
  | .socket => .error .InvalidPacket
  | _ => .ok ()

/-- The fallback-routing scenario of the spec: configured route
    10.0.0.0/24 via gateway 10.0.0.1, and the gateway's VA learned from
    transport address 77. -/
def rt6 : RouteTable :=
  let rt := add_route RouteTable.empty (.v4 167772160 24) (.v4 167772161)
  let (raId, rt) := get_or_add_ra 10 3 77 rt
  (add_or_update_va 10 (.v4 167772161) raId rt).2

/-- The reconnect scenario of the spec: two servers, reconnect_timeout 1,
    rebind off, a connected socket, and no inbound traffic ever recorded. -/
def c8sock : CSock := ⟨false, some "S1", false⟩

def c8client : Client :=
  { cfg := ⟨false, false, 1, 60, 7, ["S1", "S2"]⟩
    state := ⟨none, none, none, none, none, 0, 0, 0⟩
    server_index := 0
    socket := some c8sock
    factoryPresent := false }

/-- A tick of the reactor with every descriptor present and ready except the
    exit signal, and handlers that all succeed. -/
def pollInputC9 : PollInput := ⟨true, true, true, true, true, false, false⟩

def hresC9 : HAct → Except Err Unit := fun _ => Except.ok ()

/-- A server engine with an installed socket, for the rebind-frame scenario. -/
def c10eng : ServerEng :=
  { route := RouteTable.empty
    stats := []
    socket := some ⟨9, false, some 3⟩
    last_rebind := none
    last_health := none }

/-! ## Theorems

### GF(2^8), AES and CBC inversion -/

theorem bxor_zero (a : Byte) : bxor a 0 = a := by
  simp [bxor, Fin.ext_iff]

theorem zero_bxor (a : Byte) : bxor 0 a = a := by
  simp [bxor, Fin.ext_iff]

theorem bxor_cancel (a k : Byte) : bxor (bxor a k) k = a := by
  simp [bxor, Fin.ext_iff, Nat.xor_assoc]

theorem bxor_cancel_left (a b : Byte) : bxor a (bxor a b) = b := by
  simp [bxor, Fin.ext_iff, ← Nat.xor_assoc]

theorem two_mul_xor (m n : Nat) : 2 * m ^^^ 2 * n = 2 * (m ^^^ n) := by
  simpa [Nat.bit_false] using Nat.xor_bit false m false n

theorem xor_cancel_mid (c x y : Nat) : (c ^^^ x) ^^^ (c ^^^ y) = x ^^^ y := by
  rw [Nat.xor_comm c x, Nat.xor_assoc, Nat.xor_cancel_left]

set_option maxRecDepth 2048 in
theorem xor_two_pow_tab8 : ∀ x : Fin 256, 256 ^^^ x.val = 256 + x.val := by decide

set_option maxRecDepth 2048 in
theorem xor_two_pow_tab7 : ∀ x : Fin 128, 128 ^^^ x.val = 128 + x.val := by decide

theorem xor_high8 (x : Nat) (h : x < 256) : 256 ^^^ x = 256 + x := xor_two_pow_tab8 ⟨x, h⟩

theorem xor_high7 (x : Nat) (h : x < 128) : 128 ^^^ x = 128 + x := xor_two_pow_tab7 ⟨x, h⟩

theorem xor_lt_128 {a b : Nat} (ha : a < 128) (hb : b < 128) : a ^^^ b < 128 := by
  have := Nat.xor_lt_two_pow (n := 7) (by omega : a < 2 ^ 7) (by omega : b < 2 ^ 7)
  omega

theorem xor_lt_256 {a b : Nat} (ha : a < 256) (hb : b < 256) : a ^^^ b < 256 := by
  have := Nat.xor_lt_two_pow (n := 8) (by omega : a < 2 ^ 8) (by omega : b < 2 ^ 8)
  omega

theorem xtime_val (x : Byte) :
    (xtime x).val = if x.val < 128 then 2 * x.val else (2 * x.val ^^^ 283) % 256 := by
  unfold xtime
  split
  · rfl
  · rfl

/-- A high-half byte written with its top bit split off as an xor. -/
theorem high_split {b : Nat} (hb1 : 128 ≤ b) (hb2 : b < 256) : b = 128 ^^^ (b - 128) := by
  rw [xor_high7 (b - 128) (by omega)]
  omega

/-- For a high-half byte the xtime else-branch drops the carried-out bit. -/
theorem xtime_high_val {b : Nat} (hb1 : 128 ≤ b) (hb2 : b < 256) :
    (2 * b ^^^ 283) % 256 = 2 * (b - 128) ^^^ 27 := by
  have h2b : 2 * b = 256 ^^^ (2 * (b - 128)) := by
    rw [xor_high8 (2 * (b - 128)) (by omega)]
    omega
  have h283 : (283 : Nat) = 256 ^^^ 27 := by decide
  rw [h2b, h283, xor_cancel_mid]
  exact Nat.mod_eq_of_lt (xor_lt_256 (by omega) (by omega))

theorem xtime_linear_val (A B : Nat) (hA : A < 256) (hB : B < 256) :
    (if A ^^^ B < 128 then 2 * (A ^^^ B) else (2 * (A ^^^ B) ^^^ 283) % 256)
      = (if A < 128 then 2 * A else (2 * A ^^^ 283) % 256)
        ^^^ (if B < 128 then 2 * B else (2 * B ^^^ 283) % 256) := by
  rcases Nat.lt_or_ge A 128 with ha | ha <;> rcases Nat.lt_or_ge B 128 with hb | hb
  · rw [if_pos ha, if_pos hb, if_pos (xor_lt_128 ha hb), two_mul_xor]
  · have hB' : B - 128 < 128 := by omega
    have hABaux : A ^^^ (B - 128) < 128 := xor_lt_128 ha hB'
    have hABeq : A ^^^ B = 128 + (A ^^^ (B - 128)) := by
      conv_lhs => rw [high_split hb hB]
      rw [Nat.xor_comm A (128 ^^^ (B - 128)), Nat.xor_assoc,
        Nat.xor_comm (B - 128) A, xor_high7 (A ^^^ (B - 128)) hABaux]
    rw [if_pos ha, if_neg (by omega : ¬ B < 128), if_neg (by omega : ¬ A ^^^ B < 128)]
    have hL : (2 * (A ^^^ B) ^^^ 283) % 256 = 2 * (A ^^^ (B - 128)) ^^^ 27 := by
      have h := xtime_high_val (b := A ^^^ B) (by omega) (by omega)
      rw [show (A ^^^ B) - 128 = A ^^^ (B - 128) from by omega] at h
      exact h
    rw [hL, xtime_high_val hb hB, ← two_mul_xor]
    exact Nat.xor_assoc _ _ _
  · have hA' : A - 128 < 128 := by omega
    have hABaux : (A - 128) ^^^ B < 128 := xor_lt_128 hA' hb
    have hABeq : A ^^^ B = 128 + ((A - 128) ^^^ B) := by
      conv_lhs => rw [high_split ha hA]
      rw [Nat.xor_assoc, xor_high7 ((A - 128) ^^^ B) hABaux]
    rw [if_neg (by omega : ¬ A < 128), if_pos hb, if_neg (by omega : ¬ A ^^^ B < 128)]
    have hL : (2 * (A ^^^ B) ^^^ 283) % 256 = 2 * ((A - 128) ^^^ B) ^^^ 27 := by
      have h := xtime_high_val (b := A ^^^ B) (by omega) (by omega)
      rw [show (A ^^^ B) - 128 = (A - 128) ^^^ B from by omega] at h
      exact h
    rw [hL, xtime_high_val ha hA, ← two_mul_xor, Nat.xor_assoc,
      Nat.xor_comm (2 * B) 27, ← Nat.xor_assoc]
  · have hA' : A - 128 < 128 := by omega
    have hB' : B - 128 < 128 := by omega
    have hABeq : A ^^^ B = (A - 128) ^^^ (B - 128) := by
      conv_lhs => rw [high_split ha hA, high_split hb hB]
      exact xor_cancel_mid 128 (A - 128) (B - 128)
    have hablt : A ^^^ B < 128 := by
      rw [hABeq]
      exact xor_lt_128 hA' hB'
    rw [if_pos hablt, if_neg (by omega : ¬ A < 128), if_neg (by omega : ¬ B < 128),
      xtime_high_val ha hA, xtime_high_val hb hB, hABeq,
      Nat.xor_comm (2 * (A - 128)) 27, Nat.xor_comm (2 * (B - 128)) 27,
      xor_cancel_mid, two_mul_xor]

theorem xtime_linear : ∀ a b : Byte, xtime (bxor a b) = bxor (xtime a) (xtime b) := by
  intro a b
  apply Fin.ext
  show (xtime (bxor a b)).val = (xtime a).val ^^^ (xtime b).val
  have hv : (bxor a b).val = a.val ^^^ b.val := rfl
  rw [xtime_val, xtime_val, xtime_val, hv]
  exact xtime_linear_val a.val b.val a.isLt b.isLt

theorem mul3_linear (a b : Byte) : mul3 (bxor a b) = bxor (mul3 a) (mul3 b) := by
  simp only [mul3, xtime_linear]; ac_rfl

theorem mul9_linear (a b : Byte) : mul9 (bxor a b) = bxor (mul9 a) (mul9 b) := by
  simp only [mul9, xtime_linear]; ac_rfl

theorem mul11_linear (a b : Byte) : mul11 (bxor a b) = bxor (mul11 a) (mul11 b) := by
  simp only [mul11, xtime_linear]; ac_rfl

theorem mul13_linear (a b : Byte) : mul13 (bxor a b) = bxor (mul13 a) (mul13 b) := by
  simp only [mul13, xtime_linear]; ac_rfl

theorem mul14_linear (a b : Byte) : mul14 (bxor a b) = bxor (mul14 a) (mul14 b) := by
  simp only [mul14, xtime_linear]; ac_rfl

theorem mixCol_linear (u v : Col) : mixCol (colXor u v) = colXor (mixCol u) (mixCol v) := by
  cases u; cases v
  simp only [mixCol, colXor, mul2, mul3, xtime_linear, Col.mk.injEq]
  refine ⟨by ac_rfl, by ac_rfl, by ac_rfl, by ac_rfl⟩

theorem invMixCol_linear (u v : Col) :
    invMixCol (colXor u v) = colXor (invMixCol u) (invMixCol v) := by
  cases u; cases v
  simp only [invMixCol, colXor, mul9, mul11, mul13, mul14, xtime_linear, Col.mk.injEq]
  refine ⟨by ac_rfl, by ac_rfl, by ac_rfl, by ac_rfl⟩

set_option maxRecDepth 10000 in
set_option maxHeartbeats 1000000 in
theorem invMix_mix_b0 : ∀ a : Byte, invMixCol (mixCol ⟨a, 0, 0, 0⟩) = ⟨a, 0, 0, 0⟩ := by decide

set_option maxRecDepth 10000 in
set_option maxHeartbeats 1000000 in
theorem invMix_mix_b1 : ∀ a : Byte, invMixCol (mixCol ⟨0, a, 0, 0⟩) = ⟨0, a, 0, 0⟩ := by decide

set_option maxRecDepth 10000 in
set_option maxHeartbeats 1000000 in
theorem invMix_mix_b2 : ∀ a : Byte, invMixCol (mixCol ⟨0, 0, a, 0⟩) = ⟨0, 0, a, 0⟩ := by decide

set_option maxRecDepth 10000 in
set_option maxHeartbeats 1000000 in
theorem invMix_mix_b3 : ∀ a : Byte, invMixCol (mixCol ⟨0, 0, 0, a⟩) = ⟨0, 0, 0, a⟩ := by decide

theorem col_decomp (a b c d : Byte) :
    colXor (colXor (colXor ⟨a, 0, 0, 0⟩ ⟨0, b, 0, 0⟩) ⟨0, 0, c, 0⟩) ⟨0, 0, 0, d⟩
      = (⟨a, b, c, d⟩ : Col) := by
  simp [colXor, bxor_zero, zero_bxor]

theorem invMixCol_mixCol (q : Col) : invMixCol (mixCol q) = q := by
  cases q with
  | mk a b c d =>
    rw [← col_decomp a b c d, mixCol_linear, mixCol_linear, mixCol_linear,
      invMixCol_linear, invMixCol_linear, invMixCol_linear,
      invMix_mix_b0, invMix_mix_b1, invMix_mix_b2, invMix_mix_b3, col_decomp]

set_option maxRecDepth 10000 in
set_option maxHeartbeats 1000000 in
theorem invSbox_sbox : ∀ b : Byte, invSbox (sbox b) = b := by decide

set_option maxRecDepth 4096 in
/-- FIPS-197 appendix C.1: the AES-128 cipher example, checked on the
    embedded key schedule and rounds. -/
theorem aes128_fips_vector :
    aesEncBytes (roundKeysOfWords (keyExpandWords 4 44
        [0, 1, 2, 3, 4, 5, 6, 7, 8, 9, 10, 11, 12, 13, 14, 15]))
      [0x00, 0x11, 0x22, 0x33, 0x44, 0x55, 0x66, 0x77,
       0x88, 0x99, 0xaa, 0xbb, 0xcc, 0xdd, 0xee, 0xff]
    = [0x69, 0xc4, 0xe0, 0xd8, 0x6a, 0x7b, 0x04, 0x30,
       0xd8, 0xcd, 0xb7, 0x80, 0x70, 0xb4, 0xc5, 0x5a] := by decide

set_option maxRecDepth 4096 in
/-- FIPS-197 appendix C.3: the AES-256 cipher example. -/
theorem aes256_fips_vector :
    aesEncBytes (roundKeysOfWords (keyExpandWords 8 60
        [0, 1, 2, 3, 4, 5, 6, 7, 8, 9, 10, 11, 12, 13, 14, 15, 16, 17,
         18, 19, 20, 21, 22, 23, 24, 25, 26, 27, 28, 29, 30, 31]))
      [0x00, 0x11, 0x22, 0x33, 0x44, 0x55, 0x66, 0x77,
       0x88, 0x99, 0xaa, 0xbb, 0xcc, 0xdd, 0xee, 0xff]
    = [0x8e, 0xa2, 0xb7, 0xca, 0x51, 0x67, 0x45, 0xbf,
       0xea, 0xfc, 0x49, 0x90, 0x4b, 0x49, 0x60, 0x89] := by decide

theorem invShift_shift (s : St) : invShiftRows (shiftRows s) = s := by
  cases s; rfl

theorem invSub_sub (s : St) : invSubBytes (subBytes s) = s := by
  cases s; simp [subBytes, invSubBytes, invSbox_sbox]

/-- A state rebuilt from four columns. -/
theorem invMix_mix (s : St) : invMixColumns (mixColumns s) = s := by
  cases s with
  | mk a0 a1 a2 a3 a4 a5 a6 a7 a8 a9 a10 a11 a12 a13 a14 a15 =>
    show (let q0 := invMixCol (mixCol ⟨a0, a1, a2, a3⟩)
          let q1 := invMixCol (mixCol ⟨a4, a5, a6, a7⟩)
          let q2 := invMixCol (mixCol ⟨a8, a9, a10, a11⟩)
          let q3 := invMixCol (mixCol ⟨a12, a13, a14, a15⟩)
          St.mk q0.c0 q0.c1 q0.c2 q0.c3 q1.c0 q1.c1 q1.c2 q1.c3
            q2.c0 q2.c1 q2.c2 q2.c3 q3.c0 q3.c1 q3.c2 q3.c3)
        = St.mk a0 a1 a2 a3 a4 a5 a6 a7 a8 a9 a10 a11 a12 a13 a14 a15
    simp only [invMixCol_mixCol]

theorem ark_ark (k s : St) : ark k (ark k s) = s := by
  cases s; cases k; simp [ark, bxor_cancel]

theorem dec_enc_rounds : ∀ ks : List St, ∀ s, decRounds (encRounds s ks) ks = s := by
  intro ks
  induction ks with
  | nil => intro s; rfl
  | cons k ks ih =>
    intro s
    cases ks with
    | nil =>
      simp [encRounds, decRounds, ark_ark, invShift_shift, invSub_sub]
    | cons k2 ks2 =>
      show decRounds (encRounds (ark k (mixColumns (shiftRows (subBytes s)))) (k2 :: ks2))
          (k :: k2 :: ks2) = s
      simp only [decRounds]
      rw [ih]
      rw [ark_ark, invMix_mix, invShift_shift, invSub_sub]

theorem aesDecSt_aesEncSt (rks : List St) (pt : St) :
    aesDecSt rks (aesEncSt rks pt) = pt := by
  cases rks with
  | nil => rfl
  | cons k0 rest => simp [aesEncSt, aesDecSt, dec_enc_rounds, ark_ark]

theorem toSt_fromSt (s : St) : toSt (fromSt s) = s := by
  cases s; rfl

theorem fromSt_length (s : St) : (fromSt s).length = 16 := rfl

theorem fromSt_toSt (l : List Byte) (h : l.length = 16) : fromSt (toSt l) = l := by
  cases l with
  | nil =>
    simp only [List.length_cons, List.length_nil] at h
    omega
  | cons b0 l =>
    cases l with
    | nil =>
      simp only [List.length_cons, List.length_nil] at h
      omega
    | cons b1 l =>
      cases l with
      | nil =>
        simp only [List.length_cons, List.length_nil] at h
        omega
      | cons b2 l =>
        cases l with
        | nil =>
          simp only [List.length_cons, List.length_nil] at h
          omega
        | cons b3 l =>
          cases l with
          | nil =>
            simp only [List.length_cons, List.length_nil] at h
            omega
          | cons b4 l =>
            cases l with
            | nil =>
              simp only [List.length_cons, List.length_nil] at h
              omega
            | cons b5 l =>
              cases l with
              | nil =>
                simp only [List.length_cons, List.length_nil] at h
                omega
              | cons b6 l =>
                cases l with
                | nil =>
                  simp only [List.length_cons, List.length_nil] at h
                  omega
                | cons b7 l =>
                  cases l with
                  | nil =>
                    simp only [List.length_cons, List.length_nil] at h
                    omega
                  | cons b8 l =>
                    cases l with
                    | nil =>
                      simp only [List.length_cons, List.length_nil] at h
                      omega
                    | cons b9 l =>
                      cases l with
                      | nil =>
                        simp only [List.length_cons, List.length_nil] at h
                        omega
                      | cons b10 l =>
                        cases l with
                        | nil =>
                          simp only [List.length_cons, List.length_nil] at h
                          omega
                        | cons b11 l =>
                          cases l with
                          | nil =>
                            simp only [List.length_cons, List.length_nil] at h
                            omega
                          | cons b12 l =>
                            cases l with
                            | nil =>
                              simp only [List.length_cons, List.length_nil] at h
                              omega
                            | cons b13 l =>
                              cases l with
                              | nil =>
                                simp only [List.length_cons, List.length_nil] at h
                                omega
                              | cons b14 l =>
                                cases l with
                                | nil =>
                                  simp only [List.length_cons, List.length_nil] at h
                                  omega
                                | cons b15 l =>
                                  cases l with
                                  | nil => rfl
                                  | cons b16 l =>
                                    simp only [List.length_cons, List.length_nil] at h
                                    omega

theorem aesEncBytes_length (rks : List St) (b : List Byte) :
    (aesEncBytes rks b).length = 16 := rfl

theorem aesEncBytes_ne_nil (rks : List St) (b : List Byte) :
    aesEncBytes rks b ≠ [] := by
  intro h
  have := congrArg List.length h
  simp [aesEncBytes_length] at this

theorem aesDecBytes_aesEncBytes (rks : List St) (b : List Byte) (h : b.length = 16) :
    aesDecBytes rks (aesEncBytes rks b) = b := by
  simp [aesDecBytes, aesEncBytes, toSt_fromSt, aesDecSt_aesEncSt, fromSt_toSt _ h]

theorem xorBytes_length (u v : List Byte) :
    (xorBytes u v).length = min u.length v.length := by
  simp [xorBytes]

theorem xorBytes_cancel : ∀ u v : List Byte, u.length = v.length →
    xorBytes u (xorBytes u v) = v := by
  intro u
  induction u with
  | nil =>
    intro v h
    cases v with
    | nil => rfl
    | cons b t => simp at h
  | cons a u ih =>
    intro v h
    cases v with
    | nil => simp at h
    | cons b t =>
      show bxor a (bxor a b) :: xorBytes u (xorBytes u t) = b :: t
      rw [bxor_cancel_left, ih t (by simpa using h)]

theorem chunksOfGo_fuel (k : Nat) (hk : 0 < k) :
    ∀ f1 f2 l, l.length ≤ f1 → l.length ≤ f2 →
      chunksOfGo k f1 l = chunksOfGo k f2 l := by
  intro f1
  induction f1 with
  | zero =>
    intro f2 l h1 h2
    have : l = [] := List.eq_nil_of_length_eq_zero (Nat.le_zero.mp h1)
    subst this
    cases f2 <;> rfl
  | succ g ih =>
    intro f2 l h1 h2
    cases l with
    | nil => cases f2 <;> rfl
    | cons b t =>
      cases f2 with
      | zero => simp at h2
      | succ g2 =>
        show (b :: t).take k :: chunksOfGo k g ((b :: t).drop k)
            = (b :: t).take k :: chunksOfGo k g2 ((b :: t).drop k)
        congr 1
        apply ih
        · simp only [List.length_drop, List.length_cons]
          simp only [List.length_cons] at h1
          omega
        · simp only [List.length_drop, List.length_cons]
          simp only [List.length_cons] at h2
          omega

theorem chunksOf_cons (k : Nat) (hk : 0 < k) (l : List Byte) (hl : l ≠ []) :
    chunksOf k l = l.take k :: chunksOf k (l.drop k) := by
  unfold chunksOf
  cases l with
  | nil => exact absurd rfl hl
  | cons b t =>
    show (b :: t).take k :: chunksOfGo k t.length ((b :: t).drop k)
        = (b :: t).take k :: chunksOfGo k ((b :: t).drop k).length ((b :: t).drop k)
    congr 1
    apply chunksOfGo_fuel k hk
    · simp only [List.length_drop, List.length_cons]
      omega
    · exact Nat.le_refl _

theorem cbcEnc_nil (rks : List St) (iv : List Byte) : cbcEnc rks iv [] = [] := rfl

theorem cbcDec_nil (rks : List St) (iv : List Byte) : cbcDec rks iv [] = [] := rfl

theorem cbcEnc_cons (rks : List St) (iv l : List Byte) (hl : l ≠ []) :
    cbcEnc rks iv l = aesEncBytes rks (xorBytes iv (l.take 16))
      ++ cbcEnc rks (aesEncBytes rks (xorBytes iv (l.take 16))) (l.drop 16) := by
  unfold cbcEnc
  rw [chunksOf_cons 16 (by norm_num) l hl]
  rfl

theorem cbcDec_cons (rks : List St) (iv l : List Byte) (hl : l ≠ []) :
    cbcDec rks iv l = xorBytes iv (aesDecBytes rks (l.take 16))
      ++ cbcDec rks (l.take 16) (l.drop 16) := by
  unfold cbcDec
  rw [chunksOf_cons 16 (by norm_num) l hl]
  rfl

theorem cbcEnc_length (rks : List St) :
    ∀ n (iv l : List Byte), l.length = 16 * n → (cbcEnc rks iv l).length = l.length := by
  intro n
  induction n with
  | zero =>
    intro iv l h
    have : l = [] := List.eq_nil_of_length_eq_zero (by omega)
    subst this
    rfl
  | succ m ih =>
    intro iv l h
    have hl : l ≠ [] := by
      intro e
      subst e
      simp at h
    rw [cbcEnc_cons rks iv l hl]
    rw [List.length_append, aesEncBytes_length,
      ih _ (l.drop 16) (by simp only [List.length_drop]; omega)]
    simp only [List.length_drop]
    omega

theorem cbc_roundtrip (rks : List St) :
    ∀ n (iv l : List Byte), l.length = 16 * n → iv.length = 16 →
      cbcDec rks iv (cbcEnc rks iv l) = l := by
  intro n
  induction n with
  | zero =>
    intro iv l h hiv
    have : l = [] := List.eq_nil_of_length_eq_zero (by omega)
    subst this
    rfl
  | succ m ih =>
    intro iv l h hiv
    have hl : l ≠ [] := by
      intro e
      subst e
      simp at h
    have htk : (l.take 16).length = 16 := by
      simp only [List.length_take]
      omega
    have hxor16 : (xorBytes iv (l.take 16)).length = 16 := by
      rw [xorBytes_length, hiv, htk]
      exact Nat.min_self 16
    rw [cbcEnc_cons rks iv l hl]
    set c := aesEncBytes rks (xorBytes iv (l.take 16)) with hc
    have hc16 : c.length = 16 := aesEncBytes_length rks _
    have hcne : c ≠ [] := aesEncBytes_ne_nil rks _
    have happ_ne : c ++ cbcEnc rks c (l.drop 16) ≠ [] := by
      intro e
      exact hcne (List.append_eq_nil.mp e).1
    rw [cbcDec_cons rks iv _ happ_ne]
    rw [List.take_left' hc16, List.drop_left' hc16]
    rw [hc, aesDecBytes_aesEncBytes rks _ hxor16]
    rw [xorBytes_cancel iv (l.take 16) (by rw [hiv, htk])]
    rw [ih c (l.drop 16) (by simp only [List.length_drop]; omega) hc16]
    exact List.take_append_drop 16 l


/-! ### The cipher capability round trip -/

theorem ivBytes_length : ivBytes.length = 16 := rfl

theorem zeroPad_mod16 (l : List Byte) : (zeroPad l).length % 16 = 0 := by
  simp only [zeroPad, List.length_append, List.length_replicate]
  omega

theorem zeroPad_length (l : List Byte) : (zeroPad l).length = roundUp16 l.length := by
  simp only [zeroPad, roundUp16, List.length_append, List.length_replicate]
  omega

theorem roundUp16_ge (n : Nat) : n ≤ roundUp16 n := by
  unfold roundUp16
  omega

theorem roundUp16_of_dvd (n : Nat) (h : n % 16 = 0) : roundUp16 n = n := by
  unfold roundUp16
  omega

theorem encrypt_vec_length (c : Cryptor) (data : List Byte) :
    (encrypt_vec c data).length = roundUp16 data.length := by
  obtain ⟨n, hn⟩ := Nat.dvd_of_mod_eq_zero (zeroPad_mod16 data)
  unfold encrypt_vec
  rw [cbcEnc_length (cryptorRoundKeys c) n ivBytes (zeroPad data) hn, zeroPad_length]

theorem decrypt_encrypt_vec (c : Cryptor) (data : List Byte) :
    decrypt_vec c (encrypt_vec c data) = .ok (zeroPad data) := by
  obtain ⟨n, hn⟩ := Nat.dvd_of_mod_eq_zero (zeroPad_mod16 data)
  have hlen : (encrypt_vec c data).length = (zeroPad data).length := by
    unfold encrypt_vec
    exact cbcEnc_length _ n _ _ hn
  unfold decrypt_vec
  rw [if_pos (by rw [hlen]; exact zeroPad_mod16 data)]
  unfold encrypt_vec
  rw [cbc_roundtrip (cryptorRoundKeys c) n ivBytes (zeroPad data) hn ivBytes_length]

/-! ### The envelope codec -/

theorem zeroPad_eq (l : List Byte) :
    zeroPad l = l ++ List.replicate ((16 - l.length % 16) % 16) 0 := rfl

theorem buildMsgRaw_take4 (op : Op) (seq : Fin 65536) (p : List Byte) :
    (buildMsgRaw op seq p).take 4 = [opByte op, 0, seqHi seq, seqLo seq] := rfl

theorem buildMsgRaw_drop20 (op : Op) (seq : Fin 65536) (p : List Byte) :
    (buildMsgRaw op seq p).drop 20 = p := by
  show (List.replicate 16 (0 : Byte) ++ p).drop 16 = p
  rw [List.drop_left' (List.length_replicate 16 0)]

theorem buildMsgRaw_length (op : Op) (seq : Fin 65536) (p : List Byte) :
    (buildMsgRaw op seq p).length = 20 + p.length := by
  simp only [buildMsgRaw, List.length_cons, List.length_append, List.length_replicate]
  omega

theorem stamped_eq (op : Op) (seq : Fin 65536) (p : List Byte) (cr : Cryptor) :
    (buildMsgRaw op seq p).take 4 ++ cr.authKey ++ (buildMsgRaw op seq p).drop 20
      = [opByte op, 0, seqHi seq, seqLo seq] ++ cr.authKey ++ p := by
  rw [buildMsgRaw_take4, buildMsgRaw_drop20]

theorem opOfByte_opByte (op : Op) : opOfByte (opByte op) = .ok op := by
  cases op <;> rfl

/-- Packet::with_cryptor without a cipher on a long-enough buffer. -/
theorem with_cryptor_ok_none (buf : List Byte) (h : ¬ buf.length < 20) :
    with_cryptor buf none = .ok ⟨buf⟩ := by
  unfold with_cryptor packetNew
  rw [if_neg h]
  show (if buf.length < 20 then Except.error Err.InvalidPacket
      else Except.ok (Packet.mk buf)) = Except.ok (Packet.mk buf)
  rw [if_neg h]

/-- Packet::with_cryptor with a cipher: successful decryption, matching auth
    slot, long-enough output. -/
theorem with_cryptor_ok_some (buf : List Byte) (cr : Cryptor) (out : List Byte)
    (h20 : ¬ buf.length < 20) (hdec : decrypt_vec cr buf = .ok out)
    (hsl : (out.drop 4).take 16 = cr.authKey) (hout : ¬ out.length < 20) :
    with_cryptor buf (some cr) = .ok ⟨out⟩ := by
  unfold with_cryptor packetNew
  rw [if_neg h20]
  simp only [hdec]
  rw [if_pos hsl, if_neg hout]

/-- Packet::with_cryptor with a cipher: successful decryption but mismatched
    auth slot is InvalidPacket. -/
theorem with_cryptor_bad_auth (buf : List Byte) (cr : Cryptor) (out : List Byte)
    (h20 : ¬ buf.length < 20) (hdec : decrypt_vec cr buf = .ok out)
    (hsl : (out.drop 4).take 16 ≠ cr.authKey) :
    with_cryptor buf (some cr) = .error .InvalidPacket := by
  unfold with_cryptor
  rw [if_neg h20]
  simp only [hdec]
  rw [if_neg hsl]

theorem with_cryptor_short (buf : List Byte) (c : Option Cryptor) (h : buf.length < 20) :
    with_cryptor buf c = .error .InvalidPacket := by
  unfold with_cryptor
  rw [if_pos h]

/-- The raw round trip used by the no-cipher case. -/
theorem with_cryptor_none_build (op : Op) (seq : Fin 65536) (p : List Byte) :
    with_cryptor (buildMsg op seq p none) none = .ok ⟨buildMsgRaw op seq p⟩ := by
  have hb : buildMsg op seq p none = buildMsgRaw op seq p := rfl
  rw [hb]
  exact with_cryptor_ok_none _ (by rw [buildMsgRaw_length]; omega)

/-- The stamped buffer of the finalizer, spelled out. -/
theorem buildMsg_some_eq (op : Op) (seq : Fin 65536) (p : List Byte) (cr : Cryptor) :
    buildMsg op seq p (some cr)
      = encrypt_vec cr ([opByte op, 0, seqHi seq, seqLo seq] ++ cr.authKey ++ p) := by
  show encrypt_vec cr
      ((buildMsgRaw op seq p).take 4 ++ cr.authKey ++ (buildMsgRaw op seq p).drop 20) = _
  rw [stamped_eq]

theorem with_cryptor_some_build (op : Op) (seq : Fin 65536) (p : List Byte) (cr : Cryptor)
    (hk : cr.authKey.length = 16) :
    with_cryptor (buildMsg op seq p (some cr)) (some cr)
      = .ok ⟨zeroPad ([opByte op, 0, seqHi seq, seqLo seq] ++ cr.authKey ++ p)⟩ := by
  set stamped := [opByte op, 0, seqHi seq, seqLo seq] ++ cr.authKey ++ p with hst
  have hstlen : stamped.length = 20 + p.length := by
    rw [hst]
    simp only [List.length_append, List.length_cons, List.length_nil, hk]
  have hpadlen : (zeroPad stamped).length = roundUp16 (20 + p.length) := by
    rw [zeroPad_length, hstlen]
  have hBlen : (buildMsg op seq p (some cr)).length = roundUp16 (20 + p.length) := by
    rw [buildMsg_some_eq, ← hst, encrypt_vec_length, hstlen]
  have hge := roundUp16_ge (20 + p.length)
  have hdec : decrypt_vec cr (buildMsg op seq p (some cr)) = .ok (zeroPad stamped) := by
    rw [buildMsg_some_eq, ← hst]
    exact decrypt_encrypt_vec cr stamped
  have hslice : ((zeroPad stamped).drop 4).take 16 = cr.authKey := by
    have h4 : ([opByte op, 0, seqHi seq, seqLo seq] : List Byte).length = 4 := rfl
    rw [zeroPad_eq stamped]
    rw [hst, List.append_assoc, List.append_assoc, List.append_assoc,
      List.drop_left' h4, List.take_left' hk]
  exact with_cryptor_ok_some _ cr _ (by omega) hdec hslice (by omega)

theorem leBytes_length : ∀ k n, (leBytes k n).length = k := by
  intro k
  induction k with
  | zero => intro n; rfl
  | succ m ih =>
    intro n
    show (leBytes m (n / 256)).length + 1 = m + 1
    rw [ih]

theorem md5_length (msg : List Byte) : (md5 msg).length = 16 := by
  unfold md5
  generalize (chunksOf 64 (md5Pad msg)).foldl md5Chunk (1732584193, 4023233417, 2562383102, 271733878) = st
  obtain ⟨a, b, c, d⟩ := st
  simp [List.length_append, leBytes_length]

theorem secret_to_key_length (s : List Byte) : (secret_to_key s).length = 16 :=
  md5_length s

theorem buildMsg_some_length (op : Op) (seq : Fin 65536) (p : List Byte) (cr : Cryptor)
    (hk : cr.authKey.length = 16) :
    (buildMsg op seq p (some cr)).length = roundUp16 (20 + p.length) := by
  rw [buildMsg_some_eq, encrypt_vec_length]
  congr 1
  simp only [List.length_append, List.length_cons, List.length_nil, hk]

theorem roundUp16_mod (n : Nat) : roundUp16 n % 16 = 0 := by
  unfold roundUp16
  omega

/-- The padded stamped buffer, regrouped so the 20-byte header is one block. -/
theorem zeroPad_stamped_struct (op : Op) (seq : Fin 65536) (p : List Byte) (cr : Cryptor)
    (hk : cr.authKey.length = 16) :
    zeroPad ([opByte op, 0, seqHi seq, seqLo seq] ++ cr.authKey ++ p)
      = ([opByte op, 0, seqHi seq, seqLo seq] ++ cr.authKey)
        ++ (p ++ List.replicate ((16 - (20 + p.length) % 16) % 16) 0) := by
  have hstlen : ([opByte op, 0, seqHi seq, seqLo seq] ++ cr.authKey ++ p).length
      = 20 + p.length := by
    simp only [List.length_append, List.length_cons, List.length_nil, hk]
  rw [zeroPad_eq, hstlen, List.append_assoc]

theorem hdr_key_length (op : Op) (seq : Fin 65536) (cr : Cryptor)
    (hk : cr.authKey.length = 16) :
    (([opByte op, 0, seqHi seq, seqLo seq] : List Byte) ++ cr.authKey).length = 20 := by
  simp only [List.length_append, List.length_cons, List.length_nil, hk]

/-- C1 (amended).  Parsing a built message with the same cipher always
    recovers the op and the sequence number; without a cipher the payload is
    exactly p; with an AES cipher the payload is p extended by the zero
    padding of the last block (ZeroPadding::unpad is the identity), so it
    equals p exactly when 16 divides 20+len(p). -/
theorem C1_codec_round_trip :
    (∀ (op : Op) (seq : Fin 65536) (p : List Byte),
      ∃ pk : Packet, with_cryptor (buildMsg op seq p none) none = .ok pk
        ∧ pk.opRes = .ok op ∧ pk.seqVal = seq.val ∧ pk.payload = p)
    ∧ (∀ (op : Op) (seq : Fin 65536) (p : List Byte) (cr : Cryptor),
      cr.authKey.length = 16 →
      ∃ pk : Packet, with_cryptor (buildMsg op seq p (some cr)) (some cr) = .ok pk
        ∧ pk.opRes = .ok op ∧ pk.seqVal = seq.val
        ∧ pk.payload = p ++ List.replicate (padTail (20 + p.length) (some cr)) 0) := by
  constructor
  · intro op seq p
    refine ⟨⟨buildMsgRaw op seq p⟩, with_cryptor_none_build op seq p, ?_, ?_, ?_⟩
    · show opOfByte (opByte op) = .ok op
      exact opOfByte_opByte op
    · show 256 * (seq.val / 256) + seq.val % 256 = seq.val
      omega
    · exact buildMsgRaw_drop20 op seq p
  · intro op seq p cr hk
    refine ⟨⟨zeroPad ([opByte op, 0, seqHi seq, seqLo seq] ++ cr.authKey ++ p)⟩,
      with_cryptor_some_build op seq p cr hk, ?_, ?_, ?_⟩
    · show opOfByte (opByte op) = .ok op
      exact opOfByte_opByte op
    · show 256 * (seq.val / 256) + seq.val % 256 = seq.val
      omega
    · show (zeroPad ([opByte op, 0, seqHi seq, seqLo seq] ++ cr.authKey ++ p)).drop 20
          = p ++ List.replicate (padTail (20 + p.length) (some cr)) 0
      rw [zeroPad_stamped_struct op seq p cr hk,
        List.drop_left' (hdr_key_length op seq cr hk)]
      rfl

/-- C2.  Parse rejection: a buffer shorter than 20 bytes is InvalidPacket;
    with a cipher, a decrypted buffer whose bytes 4..20 differ from the
    cipher's auth_key is InvalidPacket; and a packet built under the cipher
    of one secret parses as InvalidPacket under the cipher of another secret
    whenever the foreign decryption garbles the auth slot (the authentication
    property the spec asserts of the cipher; witnessed by evaluation at
    concrete secrets). -/
theorem C2_parse_rejection :
    (∀ (buf : List Byte) (c : Option Cryptor), buf.length < 20 →
      with_cryptor buf c = .error .InvalidPacket)
    ∧ (∀ (buf : List Byte) (cr : Cryptor) (out : List Byte), 20 ≤ buf.length →
      decrypt_vec cr buf = .ok out → (out.drop 4).take 16 ≠ cr.authKey →
      with_cryptor buf (some cr) = .error .InvalidPacket)
    ∧ (∀ (s1 s2 : List Byte) (k : CipherKind) (op : Op) (seq : Fin 65536) (p : List Byte),
      (((cbcDec (cryptorRoundKeys ⟨k, secret_to_key s2⟩) ivBytes
          (buildMsg op seq p (some ⟨k, secret_to_key s1⟩))).drop 4).take 16
        ≠ secret_to_key s2) →
      with_cryptor (buildMsg op seq p (some ⟨k, secret_to_key s1⟩))
        (some ⟨k, secret_to_key s2⟩) = .error .InvalidPacket) := by
  refine ⟨?_, ?_, ?_⟩
  · intro buf c h
    exact with_cryptor_short buf c h
  · intro buf cr out h20 hdec hsl
    exact with_cryptor_bad_auth buf cr out (by omega) hdec hsl
  · intro s1 s2 k op seq p hgarble
    have hk1 : (Cryptor.mk k (secret_to_key s1)).authKey.length = 16 := secret_to_key_length s1
    have hBlen := buildMsg_some_length op seq p ⟨k, secret_to_key s1⟩ hk1
    have h20 : ¬ (buildMsg op seq p (some ⟨k, secret_to_key s1⟩)).length < 20 := by
      rw [hBlen]
      have := roundUp16_ge (20 + p.length)
      omega
    have hmod : (buildMsg op seq p (some ⟨k, secret_to_key s1⟩)).length % 16 = 0 := by
      rw [hBlen]
      exact roundUp16_mod _
    have hdec : decrypt_vec ⟨k, secret_to_key s2⟩
        (buildMsg op seq p (some ⟨k, secret_to_key s1⟩))
        = .ok (cbcDec (cryptorRoundKeys ⟨k, secret_to_key s2⟩) ivBytes
            (buildMsg op seq p (some ⟨k, secret_to_key s1⟩))) := by
      unfold decrypt_vec
      rw [if_pos hmod]
    exact with_cryptor_bad_auth _ _ _ h20 hdec hgarble

/-- C3.  Built-message length: without a cipher exactly 20+len(p); with a
    cipher the length is 20+len(p) rounded up to the next multiple of 16,
    and rounding adds nothing when 20+len(p) is already a multiple of 16. -/
theorem C3_built_length :
    (∀ (op : Op) (seq : Fin 65536) (p : List Byte),
      (buildMsg op seq p none).length = 20 + p.length)
    ∧ (∀ (op : Op) (seq : Fin 65536) (p : List Byte) (cr : Cryptor),
      cr.authKey.length = 16 →
      (buildMsg op seq p (some cr)).length = roundUp16 (20 + p.length))
    ∧ (∀ n, n % 16 = 0 → roundUp16 n = n) := by
  refine ⟨?_, ?_, ?_⟩
  · intro op seq p
    exact buildMsgRaw_length op seq p
  · intro op seq p cr hk
    exact buildMsg_some_length op seq p cr hk
  · intro n h
    exact roundUp16_of_dvd n h

set_option maxRecDepth 10000 in
set_option maxHeartbeats 4000000 in
/-- C1 counterexample: a Disconnect datagram (empty payload) built under
    AES-128 with the secret string a comes back from parsing with twelve
    zero bytes of payload, not the original empty payload. -/
theorem C1_counterexample :
    (with_cryptor (buildMsg .Disconnect 0 [] (some cSecA)) (some cSecA)).map Packet.payload
        = .ok (List.replicate 12 0)
      ∧ List.replicate 12 (0 : Byte) ≠ ([] : List Byte) := by
  constructor
  · decide
  · decide

/-- Witness for C1 at a concrete input: an EchoAck with a 12-byte payload
    under AES-128 of the secret string a (20+12 is a block multiple, so the
    surviving padding is empty). -/
theorem C1_witness :
    cSecA.authKey.length = 16
      ∧ (∃ pk : Packet,
        with_cryptor (buildMsg .EchoAck 1 (List.replicate 12 0) (some cSecA)) (some cSecA)
            = .ok pk
          ∧ pk.opRes = .ok .EchoAck ∧ pk.seqVal = (1 : Fin 65536).val
          ∧ pk.payload = List.replicate 12 0
              ++ List.replicate (padTail (20 + (List.replicate 12 (0 : Byte)).length)
                  (some cSecA)) 0) :=
  ⟨by decide, C1_codec_round_trip.2 .EchoAck 1 (List.replicate 12 0) cSecA (by decide)⟩

set_option maxRecDepth 10000 in
set_option maxHeartbeats 4000000 in
/-- Witness for C2 at concrete inputs: the empty buffer is rejected, and a
    Disconnect built under the secret a is rejected under the secret b, the
    garbled-auth-slot premise being discharged by evaluation. -/
theorem C2_witness :
    ([] : List Byte).length < 20
      ∧ with_cryptor [] none = .error .InvalidPacket
      ∧ (((cbcDec (cryptorRoundKeys cSecB) ivBytes
            (buildMsg .Disconnect 0 [] (some cSecA))).drop 4).take 16)
          ≠ secret_to_key [0x62]
      ∧ with_cryptor (buildMsg .Disconnect 0 [] (some cSecA)) (some cSecB)
          = .error .InvalidPacket := by
  have hg : (((cbcDec (cryptorRoundKeys cSecB) ivBytes
        (buildMsg .Disconnect 0 [] (some cSecA))).drop 4).take 16)
      ≠ secret_to_key [0x62] := by decide
  exact ⟨by decide, C2_parse_rejection.1 [] none (by decide), hg,
    C2_parse_rejection.2.2 [0x61] [0x62] .aes128 .Disconnect 0 [] hg⟩

/-- Witness for C3 at a concrete input: a 24-byte echo payload under AES-128
    of the secret string a. -/
theorem C3_witness :
    cSecA.authKey.length = 16
      ∧ (buildMsg .EchoReq 5 (List.replicate 24 0) (some cSecA)).length
        = roundUp16 (20 + (List.replicate 24 (0 : Byte)).length) :=
  ⟨by decide, C3_built_length.2.1 .EchoReq 5 (List.replicate 24 0) cSecA (by decide)⟩

/-! ### The reactor and per-datagram error recovery -/

/-- C4.  The reactor does NOT recover from every per-packet error: a received
    20-byte plaintext datagram with op IpData makes the inner IpData decode
    fail, network_recv returns that error through the q-mark, and poll's
    q-marked handler call ends the loop; a 20-byte plaintext EchoReq datagram
    even panics in echo Packet::ip_addr.  (The claim asserts the loop always
    continues; the code contradicts it.) -/
theorem C4_error_ends_loop :
    server_network_recv none c4input 9 1 2 emptySrv = .err .InvalidPacket
      ∧ server_network_recv none c4echoInput 9 1 2 emptySrv = .panicked
      ∧ (∀ (inp : PollInput) (hres : HAct → Except Err Unit),
        (inp.exitPresent && inp.exitReady) = false →
        (inp.sockPresent && inp.sockReady) = true →
        hres .keepalive = .ok () → hres .tun = .ok () →
        hres .socket = .error .InvalidPacket →
        (poll_tick inp hres).2 = .errExit .InvalidPacket) := by
  refine ⟨by decide, by decide, ?_⟩
  intro inp hres hexit hsock hk ht hs
  cases htun : inp.tunReady <;>
    simp [poll_tick, hexit, hsock, hk, ht, hs, htun]

/-- Witness for C4: the concrete tick input where only the socket handler
    fails leaves the loop with that error. -/
theorem C4_witness :
    (pollInputC4.exitPresent && pollInputC4.exitReady) = false
      ∧ (pollInputC4.sockPresent && pollInputC4.sockReady) = true
      ∧ (poll_tick pollInputC4 hresC4).2 = .errExit .InvalidPacket :=
  ⟨rfl, rfl, C4_error_ends_loop.2.2 pollInputC4 hresC4 rfl rfl rfl rfl rfl⟩

/-! ### The route table and the server's packet handling -/

theorem alookup_aset {κ ν : Type} [DecidableEq κ] :
    ∀ (m : List (κ × ν)) (k : κ) (v : ν), alookup (aset m k v) k = some v := by
  intro m k v
  induction m with
  | nil => simp [aset, alookup]
  | cons e rest ih =>
    cases e with
    | mk k' v' =>
      by_cases h : k' = k
      · simp [aset, alookup, h]
      · simp [aset, alookup, h, ih]

theorem get_or_add_ra_va_map (now seed : Nat) (a : SockAddr) (rt : RouteTable) :
    ((get_or_add_ra now seed a rt).2).va_map = rt.va_map := by
  unfold get_or_add_ra
  cases h : alookup rt.ra_map a <;> simp [cellTouch]

/-- add_or_update_va refuses the unspecified address and changes nothing. -/
theorem add_va_unspec (now : Nat) (va : IpA) (raId : Nat) (rt : RouteTable)
    (h : va.is_unspecified = true) :
    add_or_update_va now va raId rt = (none, rt) := by
  unfold add_or_update_va
  rw [if_pos h]

/-- add_or_update_va on a specified address always yields a binding for it,
    inserted or replaced in the VA map. -/
theorem add_va_spec (now : Nat) (va : IpA) (raId : Nat) (rt : RouteTable)
    (h : va.is_unspecified = false) :
    ∃ v : VirtualAddr, add_or_update_va now va raId rt
      = (some v, { rt with va_map := aset rt.va_map va v }) := by
  unfold add_or_update_va
  rw [if_neg (by simp [h])]
  cases halo : alookup rt.va_map va with
  | some v0 =>
    refine ⟨{ v0 with
        last_recv := now
        ra := if cellAddr rt v0.ra ≠ cellAddr rt raId then raId else v0.ra }, ?_⟩
    simp only [halo]
  | none =>
    refine ⟨⟨va, raId, now⟩, ?_⟩
    simp only [halo]

/-- C5 (amended).  Server::forward_local drops an inner packet (no TUN write,
    no binding, no statistics) exactly when its source is the unspecified
    address; any other source — advertised before or not — gets a VA binding
    created or updated and the packet is written to TUN. -/
theorem C5_unknown_source (now seed : Nat) (ra : SockAddr) (pkt : List Byte)
    (st : ServerSt) (src : IpA) (hsrc : source_ip pkt = .ok src) :
    (src.is_unspecified = true →
      forward_local now seed ra pkt st
          = .ok { st with route := (get_or_add_ra now seed ra st.route).2 }
        ∧ ((get_or_add_ra now seed ra st.route).2).va_map = st.route.va_map)
    ∧ (src.is_unspecified = false →
      ∃ st', forward_local now seed ra pkt st = .ok st'
        ∧ st'.tunWrites = st.tunWrites ++ [pkt]
        ∧ st'.route.contains src = true
        ∧ st'.stats = bumpRx st.stats src pkt.length) := by
  have hnib : ∃ b rest, pkt = b :: rest ∧ (b.val / 16 = 4 ∨ b.val / 16 = 6) := by
    cases pkt with
    | nil => simp [source_ip] at hsrc
    | cons b rest =>
      refine ⟨b, rest, rfl, ?_⟩
      simp only [source_ip] at hsrc
      split at hsrc
      · exact Or.inl (by assumption)
      · exact Or.inr (by assumption)
      · simp at hsrc
  obtain ⟨b, rest, hpkt, hb⟩ := hnib
  constructor
  · intro hunspec
    refine ⟨?_, get_or_add_ra_va_map now seed ra st.route⟩
    unfold forward_local
    rw [hsrc]
    simp only [add_va_unspec _ _ _ _ hunspec]
  · intro hspec
    obtain ⟨v, hv⟩ := add_va_spec now src (get_or_add_ra now seed ra st.route).1
      (get_or_add_ra now seed ra st.route).2 hspec
    refine ⟨{ st with
        route := { (get_or_add_ra now seed ra st.route).2 with
          va_map := aset ((get_or_add_ra now seed ra st.route).2).va_map src v }
        stats := bumpRx st.stats src pkt.length
        tunWrites := (st.tunWrites ++ [pkt]) }, ?_, rfl, ?_, rfl⟩
    · unfold forward_local
      rw [hsrc]
      simp only [hv]
      subst hpkt
      simp only []
      rw [if_pos hb]
    · show ((alookup (aset ((get_or_add_ra now seed ra st.route).2).va_map src v) src).isSome)
          = true
      rw [alookup_aset]
      rfl

/-- C5 counterexample: an IpData whose inner source 10.0.0.9 was never
    advertised is NOT dropped: the packet is written to TUN and a VA binding
    for 10.0.0.9 is created. -/
theorem C5_counterexample :
    (forward_local 100 7 55 pktV1 emptySrv).map
        (fun st => (st.tunWrites.length, st.route.contains (.v4 167772169)))
      = .ok (1, true) := by decide

/-- Witness for C5: the unspecified-source packet is dropped without a TUN
    write, and the specified-source packet is forwarded. -/
theorem C5_witness :
    source_ip pktUnspec = .ok (.v4 0)
      ∧ forward_local 100 7 55 pktUnspec emptySrv
          = .ok { emptySrv with route := (get_or_add_ra 100 7 55 emptySrv.route).2 }
      ∧ source_ip pktV1 = .ok (.v4 167772169)
      ∧ (∃ st', forward_local 100 7 55 pktV1 emptySrv = .ok st'
          ∧ st'.tunWrites = emptySrv.tunWrites ++ [pktV1]
          ∧ st'.route.contains (.v4 167772169) = true
          ∧ st'.stats = bumpRx emptySrv.stats (.v4 167772169) pktV1.length) :=
  ⟨by decide,
   ((C5_unknown_source 100 7 55 pktUnspec emptySrv (.v4 0) (by decide)).1 (by decide)).1,
   by decide,
   (C5_unknown_source 100 7 55 pktV1 emptySrv (.v4 167772169) (by decide)).2 (by decide)⟩

theorem scan_eq_find (rt : RouteTable) (va : IpA) :
    ∀ routes : List (IpNetM × IpA),
      scan_vt_routes rt va routes
        = (routes.find? fun e => netContains e.1 va && (alookup rt.va_map e.2).isSome).bind
            (fun e => (alookup rt.va_map e.2).map (·.ra)) := by
  intro routes
  induction routes with
  | nil => rfl
  | cons e rest ih =>
    cases e with
    | mk net gw =>
      cases hc : netContains net va with
      | false => simp [scan_vt_routes, hc, List.find?, ih]
      | true =>
        cases hlo : alookup rt.va_map gw with
        | some gva => simp [scan_vt_routes, hc, hlo, List.find?]
        | none => simp [scan_vt_routes, hc, hlo, List.find?, ih]

/-- C6.  Fallback routing with tie-break: the scan is exactly the first
    configured route (in insertion order) whose net contains the queried VIP
    and whose gateway has a VA binding, yielding that gateway's RA; on a scan
    hit the queried VIP is inserted into the VA map bound to that RA, and a
    scan miss yields no route. -/
theorem C6_fallback_routing :
    (∀ (rt : RouteTable) (va : IpA) (routes : List (IpNetM × IpA)),
      scan_vt_routes rt va routes
        = (routes.find? fun e => netContains e.1 va && (alookup rt.va_map e.2).isSome).bind
            (fun e => (alookup rt.va_map e.2).map (·.ra)))
    ∧ (∀ (now : Nat) (va : IpA) (rt : RouteTable),
      alookup rt.va_map va = none → va.is_unspecified = false →
      (scan_vt_routes rt va rt.vt_routes = none → get_route now va rt = (none, rt))
      ∧ (∀ raId, scan_vt_routes rt va rt.vt_routes = some raId →
        get_route now va rt
          = (some ⟨va, raId, now⟩,
            { rt with va_map := aset rt.va_map va ⟨va, raId, now⟩ }))) := by
  refine ⟨fun rt va routes => scan_eq_find rt va routes, ?_⟩
  intro now va rt hmiss hspec
  constructor
  · intro hscan
    unfold get_route get_rt_route
    simp only [hmiss, hscan]
  · intro raId hscan
    unfold get_route get_rt_route add_or_update_va
    simp only [hmiss, hscan]
    rw [if_neg (by simp [hspec])]

/-- Witness for C6: the spec scenario — route 10.0.0.0/24 via gateway
    10.0.0.1 bound to transport address 77; the unbound VIP 10.0.0.5 scans to
    the gateway's RA handle (cell 0, address 77) and is adopted. -/
theorem C6_witness :
    alookup rt6.va_map (.v4 167772165) = none
      ∧ (IpA.v4 167772165).is_unspecified = false
      ∧ scan_vt_routes rt6 (.v4 167772165) rt6.vt_routes = some 0
      ∧ cellAddr rt6 0 = 77
      ∧ get_route 20 (.v4 167772165) rt6
        = (some ⟨.v4 167772165, 0, 20⟩,
          { rt6 with va_map := aset rt6.va_map (.v4 167772165) ⟨.v4 167772165, 0, 20⟩ }) :=
  ⟨by decide, by decide, by decide, by decide,
   ((C6_fallback_routing.2 20 (.v4 167772165) rt6 (by decide) (by decide)).2 0 (by decide))⟩

/-- The shape facts source_ip guarantees about an accepted packet. -/
theorem source_ip_shape (pkt : List Byte) (src : IpA) (hsrc : source_ip pkt = .ok src) :
    ∃ b rest, pkt = b :: rest ∧ (b.val / 16 = 4 ∨ b.val / 16 = 6) := by
  cases pkt with
  | nil => simp [source_ip] at hsrc
  | cons b rest =>
    refine ⟨b, rest, rfl, ?_⟩
    simp only [source_ip] at hsrc
    split at hsrc
    · exact Or.inl (by assumption)
    · exact Or.inr (by assumption)
    · simp at hsrc

/-- C7.  Route learning, re-targeting and pruning, from the empty table:
    an inner packet with source V from transport address A binds V to A;
    a later one from B re-targets V to B; prune with timeout 0 strictly
    after the last receipt empties the table, so V resolves to nothing. -/
theorem C7_route_learning (t1 t2 t3 s1 s2 : Nat) (A B : SockAddr) (pkt : List Byte)
    (v : IpA) (hsrc : source_ip pkt = .ok v) (hv : v.is_unspecified = false)
    (hAB : A ≠ B) (ht3 : t2 < t3) :
    ∃ st1 st2 : ServerSt,
      forward_local t1 s1 A pkt emptySrv = .ok st1
      ∧ (get_route t1 v st1.route).1.map (fun w => cellAddr st1.route w.ra) = some A
      ∧ forward_local t2 s2 B pkt st1 = .ok st2
      ∧ (get_route t2 v st2.route).1.map (fun w => cellAddr st2.route w.ra) = some B
      ∧ (get_route t3 v (prune t3 0 st2.route)).1 = none := by
  obtain ⟨b, rest, hpkt, hb⟩ := source_ip_shape pkt v hsrc
  subst hpkt
  have hvv : (v.is_unspecified = true) = False := by simp [hv]
  have hdrop : ¬ (t3 - t2 ≤ 0) := by omega
  refine ⟨⟨⟨[(0, ⟨A, t1, s1 % 65536⟩)], 1, [(A, 0)], [(v, ⟨v, 0, t1⟩)], []⟩,
      [(v, ⟨(b :: rest).length, 0⟩)], [b :: rest]⟩,
    ⟨⟨[(1, ⟨B, t2, s2 % 65536⟩), (0, ⟨A, t1, s1 % 65536⟩)], 2, [(A, 0), (B, 1)],
      [(v, ⟨v, 1, t2⟩)], []⟩,
      [(v, ⟨(b :: rest).length + (b :: rest).length, 0⟩)], [b :: rest, b :: rest]⟩,
    ?_, ?_, ?_, ?_, ?_⟩
  · unfold forward_local
    rw [hsrc]
    unfold get_or_add_ra add_or_update_va
    simp only [emptySrv, RouteTable.empty, alookup, hvv]
    rw [if_pos hb]
    simp [aset, bumpRx, alookup]
  · simp [get_route, alookup, cellAddr, cellOf]
  · unfold forward_local
    rw [hsrc]
    unfold get_or_add_ra add_or_update_va
    simp only [alookup, hAB, cellAddr, cellOf, aset]
    rw [if_pos hb]
    simp [bumpRx, alookup, aset, cellAddr, cellOf, hAB, hv]
  · simp [get_route, alookup, cellAddr, cellOf]
  · unfold prune
    simp only [List.filter, decide_eq_false hdrop]
    simp [get_route, get_rt_route, alookup, scan_vt_routes]

/-- Witness for C7: V=10.0.0.9 learned from transport 55, re-targeted to 66,
    pruned at a strictly later time. -/
theorem C7_witness :
    source_ip pktV1 = .ok (.v4 167772169)
      ∧ (IpA.v4 167772169).is_unspecified = false
      ∧ (55 : SockAddr) ≠ 66
      ∧ (200 : Nat) < 300
      ∧ (∃ st1 st2 : ServerSt,
        forward_local 100 7 55 pktV1 emptySrv = .ok st1
        ∧ (get_route 100 (.v4 167772169) st1.route).1.map
            (fun w => cellAddr st1.route w.ra) = some 55
        ∧ forward_local 200 8 66 pktV1 st1 = .ok st2
        ∧ (get_route 200 (.v4 167772169) st2.route).1.map
            (fun w => cellAddr st2.route w.ra) = some 66
        ∧ (get_route 300 (.v4 167772169) (prune 300 0 st2.route)).1 = none) :=
  ⟨by decide, by decide, by decide, by decide,
   C7_route_learning 100 200 300 7 8 55 66 pktV1 (.v4 167772169)
     (by decide) (by decide) (by decide) (by decide)⟩

/-! ### The client reconnect rotation -/

/-- One qualifying keepalive tick: with a live socket, no forced rebind and a
    same-family next server, the reconnect branch advances the index by one
    modulo the server count, connects to that server and records
    last_connect, leaving inbound liveness state, config and factory alone. -/
theorem client_keepalive_rotates
    (now : Nat) (resolver : String → Except Err (Option Bool)) (factory : Except Err CSock)
    (c : Client) (sock : CSock)
    (hsock : c.socket = some sock)
    (hreb : c.cfg.rebind = false) (hhp : c.cfg.holepunch = false)
    (hres : resolver (c.cfg.server_addrs.getD
        ((c.server_index + 1) % c.cfg.server_addrs.length) "")
      = .ok (some sock.localV6))
    (hack : check_timeout c.state.last_ack c.cfg.reconnect_timeout now = true)
    (hrx : check_timeout c.state.last_rx c.cfg.reconnect_timeout now = true)
    (hconn : check_timeout c.state.last_connect c.cfg.reconnect_timeout now = true) :
    ∃ c' eff, client_keepalive now resolver factory c = .ok (c', eff)
      ∧ eff.connected = some (c.cfg.server_addrs.getD
          ((c.server_index + 1) % c.cfg.server_addrs.length) "")
      ∧ c'.server_index = (c.server_index + 1) % c.cfg.server_addrs.length
      ∧ c'.socket = some { sock with peer := some (c.cfg.server_addrs.getD
          ((c.server_index + 1) % c.cfg.server_addrs.length) "") }
      ∧ c'.state.last_connect = some now
      ∧ c'.state.last_ack = c.state.last_ack
      ∧ c'.state.last_rx = c.state.last_rx
      ∧ c'.cfg = c.cfg
      ∧ c'.factoryPresent = c.factoryPresent := by
  unfold client_keepalive
  rw [if_pos (by rw [hack, hrx, hconn]; rfl)]
  simp only [get_next_server_addr, choose_bind_addr, List.head?, hres,
    is_rebind_required, hsock, hreb, hhp, Bool.false_or, bne_self_eq_false,
    Bool.false_and, if_false, connect, echo_step]
  cases hecho : check_timeout c.state.last_echo c.cfg.keepalive_interval now <;>
    simp only [hecho, Bool.false_eq_true, if_false, if_true] <;>
    exact ⟨_, _, rfl, rfl, rfl, rfl, rfl, rfl, rfl, rfl, rfl⟩

/-- C8.  Over any silent stretch of qualifying keepalive ticks, the client
    rotates strictly round-robin: each tick advances server_index by one
    modulo the server count, connects to that server, and records
    last_connect; the sequence of connect targets is servers[(i0+1) mod N],
    servers[(i0+2) mod N], ..., so with two servers it alternates S2, S1,
    S2, ... -/
theorem C8_reconnect_rotation
    (resolver : String → Except Err (Option Bool)) (factory : Except Err CSock) :
    ∀ (times : List Nat) (c : Client) (sock : CSock),
    c.socket = some sock →
    c.cfg.rebind = false → c.cfg.holepunch = false →
    (∀ s, resolver s = .ok (some sock.localV6)) →
    c.state.last_ack = none → c.state.last_rx = none →
    c.server_index < c.cfg.server_addrs.length →
    ticksQualify c.cfg.reconnect_timeout c.state.last_connect times →
    ∃ c' targets, keepalive_iter resolver factory c times = .ok (c', targets)
      ∧ c'.server_index = (c.server_index + times.length) % c.cfg.server_addrs.length
      ∧ targets = (List.range times.length).map
          (fun i => c.cfg.server_addrs.getD
            ((c.server_index + i + 1) % c.cfg.server_addrs.length) "")
      ∧ (times = [] → c' = c)
      ∧ (∀ t, times.getLast? = some t → c'.state.last_connect = some t) := by
  intro times
  induction times with
  | nil =>
    intro c sock hsock hreb hhp hres hack hrx hidx hq
    refine ⟨c, [], rfl, ?_, rfl, fun _ => rfl, ?_⟩
    · simp [Nat.mod_eq_of_lt hidx]
    · intro t ht
      simp at ht
  | cons t ts ih =>
    intro c sock hsock hreb hhp hres hack hrx hidx hq
    obtain ⟨hqt, hqrest⟩ := hq
    have hN : 0 < c.cfg.server_addrs.length := Nat.lt_of_le_of_lt (Nat.zero_le _) hidx
    obtain ⟨c1, eff, hstep, heff, hidx1, hsock1, hconn1, hack1, hrx1, hcfg1, _⟩ :=
      client_keepalive_rotates t resolver factory c sock hsock hreb hhp (hres _)
        (by rw [hack]; rfl) (by rw [hrx]; rfl) hqt
    have hsock1' : c1.socket = some { sock with peer := some (c.cfg.server_addrs.getD
        ((c.server_index + 1) % c.cfg.server_addrs.length) "") } := hsock1
    obtain ⟨c2, targets, hiter, hidx2, htargets, hnil2, hlast2⟩ :=
      ih c1 _ hsock1' (by rw [hcfg1]; exact hreb) (by rw [hcfg1]; exact hhp)
        (fun s => hres s)
        (by rw [hack1, hack]) (by rw [hrx1, hrx])
        (by rw [hidx1, hcfg1]; exact Nat.mod_lt _ hN)
        (by rw [hcfg1, hconn1]; exact hqrest)
    refine ⟨c2, eff.connected.toList ++ targets, ?_, ?_, ?_, ?_, ?_⟩
    · unfold keepalive_iter
      simp only [hstep, hiter]
    · rw [hidx2, hidx1, hcfg1, List.length_cons]
      rw [Nat.mod_add_mod]
      congr 1
      omega
    · rw [htargets, heff, hidx1, hcfg1]
      simp only [Option.toList, List.length_cons, List.range_succ_eq_map, List.map_cons,
        List.map_map, List.cons_append, List.nil_append]
      refine List.cons_eq_cons.mpr ⟨rfl, ?_⟩
      apply List.map_congr_left
      intro i _
      show c.cfg.server_addrs.getD
          (((c.server_index + 1) % c.cfg.server_addrs.length + i + 1)
            % c.cfg.server_addrs.length) ""
        = c.cfg.server_addrs.getD
          ((c.server_index + (i + 1) + 1) % c.cfg.server_addrs.length) ""
      have hix : ((c.server_index + 1) % c.cfg.server_addrs.length + i + 1)
            % c.cfg.server_addrs.length
          = (c.server_index + (i + 1) + 1) % c.cfg.server_addrs.length := by
        rw [Nat.add_assoc ((c.server_index + 1) % c.cfg.server_addrs.length) i 1,
          Nat.mod_add_mod]
        congr 1
        omega
      rw [hix]
    · intro hcontra
      simp at hcontra
    · intro tl htl
      cases ts with
      | nil =>
        have ht : tl = t := by
          simp at htl
          omega
        rw [hnil2 rfl, ht]
        exact hconn1
      | cons t2 ts2 =>
        rw [List.getLast?_cons_cons] at htl
        exact hlast2 tl htl

/-- Witness: with servers [S1, S2], reconnect_timeout 1 and silent ticks at
    times 2 and 4, the client connects to S2 then S1 (strict round robin),
    ends back at index 0, and last_connect is 4. -/
theorem C8_witness :
    ∃ c' targets,
      keepalive_iter (fun _ => Except.ok (some false)) (Except.error Err.IoErr)
          c8client [2, 4] = Except.ok (c', targets)
      ∧ targets = ["S2", "S1"]
      ∧ c'.server_index = 0
      ∧ c'.state.last_connect = some 4 := by
  obtain ⟨c', targets, hiter, hidx, htargets, -, hlast⟩ :=
    C8_reconnect_rotation (fun _ => Except.ok (some false)) (Except.error Err.IoErr)
      [2, 4] c8client c8sock rfl rfl rfl (fun _ => rfl) rfl rfl (by decide)
      ⟨rfl, rfl, trivial⟩
  refine ⟨c', targets, hiter, ?_, ?_, hlast 4 rfl⟩
  · rw [htargets]; rfl
  · rw [hidx]; rfl

/-- C9.  Reactor tick structure: the select timeout is 2 seconds; when the
    exit signal is present and ready the iteration returns immediately with
    no handler run; otherwise keepalive is always the first handler invoked,
    the handlers run form a prefix of the canonical order (keepalive, then
    among the ready descriptors tun, socket, control, each at most once),
    and when every handler succeeds the full canonical sequence runs and
    the loop proceeds to the next tick. -/
theorem C9_reactor_tick (inp : PollInput) (hres : HAct → Except Err Unit) :
    poll_timeout_secs = 2
    ∧ ((inp.exitPresent && inp.exitReady) = true →
        poll_tick inp hres = ([], PollOutcome.cleanExit))
    ∧ ((inp.exitPresent && inp.exitReady) = false →
        (poll_tick inp hres).1.head? = some HAct.keepalive
        ∧ (∃ k, (poll_tick inp hres).1 = (canonicalTrace inp).take k)
        ∧ ((∀ a, hres a = Except.ok ()) →
            poll_tick inp hres = (canonicalTrace inp, PollOutcome.nextTick))) := by
  refine ⟨rfl, ?_, ?_⟩
  · intro h
    unfold poll_tick
    rw [if_pos h]
  · intro h
    unfold poll_tick canonicalTrace
    rw [if_neg (by simp [h])]
    cases hk : hres HAct.keepalive with
    | error e =>
      refine ⟨rfl, ⟨1, rfl⟩, fun hall => ?_⟩
      rw [hall HAct.keepalive] at hk
      exact Except.noConfusion hk
    | ok u =>
      cases htun : inp.tunReady with
      | false =>
        cases hs : inp.sockPresent && inp.sockReady with
        | false =>
          cases hc : inp.ctrlPresent && inp.ctrlReady with
          | false => exact ⟨rfl, ⟨1, rfl⟩, fun hall => rfl⟩
          | true => exact ⟨rfl, ⟨2, rfl⟩, fun hall => rfl⟩
        | true =>
          cases hsr : hres HAct.socket with
          | error e =>
            refine ⟨rfl, ⟨2, rfl⟩, fun hall => ?_⟩
            rw [hall HAct.socket] at hsr
            exact Except.noConfusion hsr
          | ok u2 =>
            cases hc : inp.ctrlPresent && inp.ctrlReady with
            | false => exact ⟨rfl, ⟨2, rfl⟩, fun hall => rfl⟩
            | true => exact ⟨rfl, ⟨3, rfl⟩, fun hall => rfl⟩
      | true =>
        cases htr : hres HAct.tun with
        | error e =>
          refine ⟨rfl, ⟨2, rfl⟩, fun hall => ?_⟩
          rw [hall HAct.tun] at htr
          exact Except.noConfusion htr
        | ok u1 =>
          cases hs : inp.sockPresent && inp.sockReady with
          | false =>
            cases hc : inp.ctrlPresent && inp.ctrlReady with
            | false => exact ⟨rfl, ⟨2, rfl⟩, fun hall => rfl⟩
            | true => exact ⟨rfl, ⟨3, rfl⟩, fun hall => rfl⟩
          | true =>
            cases hsr : hres HAct.socket with
            | error e =>
              refine ⟨rfl, ⟨3, rfl⟩, fun hall => ?_⟩
              rw [hall HAct.socket] at hsr
              exact Except.noConfusion hsr
            | ok u2 =>
              cases hc : inp.ctrlPresent && inp.ctrlReady with
              | false => exact ⟨rfl, ⟨3, rfl⟩, fun hall => rfl⟩
              | true => exact ⟨rfl, ⟨4, rfl⟩, fun hall => rfl⟩

/-- C10.  Rebind attempt frame: both for Client::rebind and for the rebind
    attempt inside Server::keepalive, last_rebind is set to the current time
    unconditionally, before the socket factory is consulted; when the factory
    fails (or is absent) nothing else changes — the whole state equals the
    original with only last_rebind stamped, so in particular the previously
    installed socket remains the current socket. -/
theorem C10_rebind_frame
    (now : Nat) (factoryC : Except Err CSock) (c : Client)
    (factoryS : Option (Except Err SSock)) (eng : ServerEng) :
    (rebind now factoryC c).2.state.last_rebind = some now
    ∧ (∀ e, factoryC = .error e →
        (rebind now factoryC c).2
          = { c with state := { c.state with last_rebind := some now } })
    ∧ (c.factoryPresent = false →
        (rebind now factoryC c).2
          = { c with state := { c.state with last_rebind := some now } })
    ∧ (server_rebind_attempt now factoryS eng).last_rebind = some now
    ∧ (∀ e, factoryS = some (.error e) →
        server_rebind_attempt now factoryS eng
          = { eng with last_rebind := some now })
    ∧ (factoryS = none →
        server_rebind_attempt now factoryS eng
          = { eng with last_rebind := some now }) := by
  refine ⟨?_, ?_, ?_, ?_, ?_, ?_⟩
  · cases hfp : c.factoryPresent <;> cases factoryC <;> simp [rebind, hfp]
  · intro e he
    subst he
    cases hfp : c.factoryPresent <;> simp [rebind, hfp]
  · intro hfp
    cases factoryC <;> simp [rebind, hfp]
  · cases factoryS with
    | none => rfl
    | some f => cases f <;> rfl
  · intro e he
    subst he
    rfl
  · intro he
    subst he
    rfl

/-- Witness: at time 5, a failing factory on the client and on the server
    leaves every field but last_rebind unchanged, and the installed sockets
    survive. -/
theorem C10_witness :
    (rebind 5 (Except.error Err.IoErr) c8client).2
        = { c8client with state := { c8client.state with last_rebind := some 5 } }
    ∧ (rebind 5 (Except.error Err.IoErr) c8client).2.socket = some c8sock
    ∧ server_rebind_attempt 5 (some (Except.error Err.IoErr)) c10eng
        = { c10eng with last_rebind := some 5 }
    ∧ (server_rebind_attempt 5 (some (Except.error Err.IoErr)) c10eng).socket
        = some ⟨9, false, some 3⟩ := by
  obtain ⟨-, h2, -, -, h5, -⟩ :=
    C10_rebind_frame 5 (Except.error Err.IoErr) c8client
      (some (Except.error Err.IoErr)) c10eng
  refine ⟨h2 Err.IoErr rfl, ?_, h5 Err.IoErr rfl, ?_⟩
  · rw [h2 Err.IoErr rfl]
    rfl
  · rw [h5 Err.IoErr rfl]
    rfl

/-- Witness: with every descriptor ready, no exit signal, and handlers that
    all succeed, the tick runs keepalive, tun, socket, control in that order
    and proceeds to the next tick. -/
theorem C9_witness :
    poll_tick pollInputC9 hresC9
        = ([HAct.keepalive, HAct.tun, HAct.socket, HAct.control],
           PollOutcome.nextTick)
      ∧ (poll_tick pollInputC9 hresC9).1.head? = some HAct.keepalive := by
  obtain ⟨-, -, h⟩ := C9_reactor_tick pollInputC9 hresC9
  obtain ⟨h1, -, h2⟩ := h rfl
  exact ⟨(h2 fun a => rfl).trans rfl, h1⟩

end MiniVtun
